import Mathlib

/-!
# eco-goinfra: the resource-builder lifecycle

A shallow embedding of `pkg/networkpolicy/multinetworkpolicy.go`,
`pkg/argocd/argocd.go` and `pkg/networkpolicy/multinetingressrule.go`.

Conventions of the embedding.

* A Go pointer that may be nil is an `Option`; a method with a pointer receiver
  takes the receiver as `Option Builder` and hands back the receiver's state
  after the call.  The Go methods that `return builder, err` return the
  receiver pointer itself, so the model returns the receiver's state once.
* A nil-pointer dereference is a run-time panic: every operation returns an
  outer `Option`, and `none` is the panic.
* The remote store is an external collaborator.  A client is a record of
  transition functions over an arbitrary store state `σ`; the `World` pairs the
  store state with the list of calls issued so far, and the only way the model
  reaches a client function is through a wrapper that appends to that list.
* `glog` output is not modelled.
-/

namespace EcoGoinfra

/-- An object of the schema catalog: the two metadata fields the builders read,
and everything else (`Rest`: remaining metadata, spec, status) as one opaque
value. -/
structure Resource (S : Type) where
  Name : String
  Namespace : String
  Rest : S
deriving DecidableEq

/-- An error value handed back by the store client.  The builders observe
nothing of it but what `k8serrors.IsNotFound` answers. -/
structure StatusError where
  msg : String
  notFound : Bool
deriving DecidableEq

/-- Go `error` values that occur in the builders: a client error passed on as
it is, `fmt.Errorf(format, args...)`, and `fmt.Errorf` with one `%w` operand. -/
inductive GoError where
  | client (e : StatusError)
  | errorf (format : String) (args : List String)
  | wrapf (format : String) (inner : GoError)
deriving DecidableEq

/-- The Go `error` interface value for what a client call returned. -/
def toError (err : Option StatusError) : Option GoError :=
  err.map GoError.client

/-- What `k8serrors.IsNotFound` answers on a non-nil error: the flag of a client
error, also through `%w` wrapping (`errors.As`); never on a plain
`fmt.Errorf` error. -/
def GoError.isNotFound : GoError → Bool
  | GoError.client e => e.notFound
  | GoError.errorf _ _ => false
  | GoError.wrapf _ inner => inner.isNotFound

/-- `k8serrors.IsNotFound(err)`. -/
def IsNotFound (err : Option GoError) : Bool :=
  match err with
  | none => false
  | some e => e.isNotFound

/-- The store state together with the calls issued to the store so far. -/
structure World (σ κ : Type) where
  store : σ
  calls : List κ

namespace msg

/-- Modelled from the spec: `msg.UndefinedCrdObjectErrString` of `pkg/msg` is
not among the sources; the spec describes it as the standard "undefined
resource" message keyed by resource kind.  The proofs use of it only that the
message is not empty. -/
def UndefinedCrdObjectErrString (crdName : String) : String :=
  "can not redefine the undefined " ++ crdName

end msg

/-! ## pkg/networkpolicy/multinetworkpolicy.go -/

namespace networkpolicy

/-- A call on `apiClient.NetworkPolicies(ns)`. -/
inductive Call (S : Type) where
  | Get (ns name : String)
  | Create (ns : String) (obj : Resource S)
  | Update (ns : String) (obj : Resource S)
  | Delete (ns name : String)
deriving DecidableEq

/-- The typed client behind a non-nil `*clients.Settings`, seen through
`NetworkPolicies(ns)`: each function takes the store state and returns the Go
results together with the next store state. -/
structure Settings (σ S : Type) where
  Get : σ → String → String → (Option (Resource S) × Option StatusError) × σ
  Create : σ → String → Resource S → (Option (Resource S) × Option StatusError) × σ
  Update : σ → String → Resource S → (Option (Resource S) × Option StatusError) × σ
  Delete : σ → String → String → Option StatusError × σ

variable {σ S : Type}

/-- The call `NetworkPolicies(ns).Get(ctx, name, opts)`, recorded. -/
def Settings.callGet (c : Settings σ S) (w : World σ (Call S)) (ns name : String) :
    (Option (Resource S) × Option StatusError) × World σ (Call S) :=
  ((c.Get w.store ns name).1,
    { store := (c.Get w.store ns name).2, calls := w.calls ++ [Call.Get ns name] })

/-- The call `NetworkPolicies(ns).Create(ctx, obj, opts)`, recorded. -/
def Settings.callCreate (c : Settings σ S) (w : World σ (Call S)) (ns : String)
    (obj : Resource S) : (Option (Resource S) × Option StatusError) × World σ (Call S) :=
  ((c.Create w.store ns obj).1,
    { store := (c.Create w.store ns obj).2, calls := w.calls ++ [Call.Create ns obj] })

/-- The call `NetworkPolicies(ns).Update(ctx, obj, opts)`, recorded. -/
def Settings.callUpdate (c : Settings σ S) (w : World σ (Call S)) (ns : String)
    (obj : Resource S) : (Option (Resource S) × Option StatusError) × World σ (Call S) :=
  ((c.Update w.store ns obj).1,
    { store := (c.Update w.store ns obj).2, calls := w.calls ++ [Call.Update ns obj] })

/-- The call `NetworkPolicies(ns).Delete(ctx, name, opts)`, recorded. -/
def Settings.callDelete (c : Settings σ S) (w : World σ (Call S)) (ns name : String) :
    Option StatusError × World σ (Call S) :=
  ((c.Delete w.store ns name).1,
    { store := (c.Delete w.store ns name).2, calls := w.calls ++ [Call.Delete ns name] })

/-- The struct `MultiNetworkPolicyBuilder`. -/
structure MultiNetworkPolicyBuilder (σ S : Type) where
  Definition : Option (Resource S)
  Object : Option (Resource S)
  apiClient : Option (Settings σ S)
  errorMsg : String

/-- The constructor `NewMultiNetworkPolicyBuilder`. -/
def NewMultiNetworkPolicyBuilder [Inhabited S] (apiClient : Option (Settings σ S))
    (name nsname : String) : MultiNetworkPolicyBuilder σ S :=
  let builder : MultiNetworkPolicyBuilder σ S :=
    { apiClient := apiClient
      Definition := some { Name := name, Namespace := nsname, Rest := default }
      Object := none
      errorMsg := "" }
  let builder :=
    if name = "" then
      { builder with errorMsg := "The multiNetworkPolicy 'name' cannot be empty" }
    else builder
  let builder :=
    if nsname = "" then
      { builder with errorMsg := "The multiNetworkPolicy 'namespace' cannot be empty" }
    else builder
  builder

/-- The method `validate`: the receiver after the call, the boolean and the
error. -/
def validate (builder : Option (MultiNetworkPolicyBuilder σ S)) :
    Option (MultiNetworkPolicyBuilder σ S) × Bool × Option GoError :=
  let resourceCRD := "NetworkPolicy"
  match builder with
  | none => (none, false, some (GoError.errorf "error: received nil %s builder" [resourceCRD]))
  | some builder =>
    let builder :=
      if builder.Definition.isNone then
        { builder with errorMsg := msg.UndefinedCrdObjectErrString resourceCRD }
      else builder
    let builder :=
      if builder.apiClient.isNone then
        { builder with errorMsg := resourceCRD ++ " builder cannot have nil apiClient" }
      else builder
    if builder.errorMsg ≠ "" then
      (some builder, false, some (GoError.errorf builder.errorMsg []))
    else
      (some builder, true, none)

/-- The method `Exists`: the boolean, the receiver after the call, the world
after the call. -/
def Exists (builder : Option (MultiNetworkPolicyBuilder σ S)) (w : World σ (Call S)) :
    Option (Bool × Option (MultiNetworkPolicyBuilder σ S) × World σ (Call S)) :=
  match validate builder with
  | (builder, false, _) => some (false, builder, w)
  | (builder, true, _) =>
    match builder with
    | none => none
    | some b =>
      match b.apiClient, b.Definition with
      | some c, some d =>
        let r := c.callGet w d.Namespace d.Name
        let err := toError r.1.2
        some (err.isNone || !IsNotFound err, some { b with Object := r.1.1 }, r.2)
      | _, _ => none

/-- The method `Create`: the error, the receiver after the call (which is also
the returned builder), the world after the call. -/
def Create (builder : Option (MultiNetworkPolicyBuilder σ S)) (w : World σ (Call S)) :
    Option (Option GoError × Option (MultiNetworkPolicyBuilder σ S) × World σ (Call S)) :=
  match validate builder with
  | (builder, false, err) => some (err, builder, w)
  | (builder, true, _) =>
    match Exists builder w with
    | none => none
    | some (true, builder, w) => some (none, builder, w)
    | some (false, builder, w) =>
      match builder with
      | none => none
      | some b =>
        match b.apiClient, b.Definition with
        | some c, some d =>
          let r := c.callCreate w d.Namespace d
          some (toError r.1.2, some { b with Object := r.1.1 }, r.2)
        | _, _ => none

/-- The method `Delete`: the error, the receiver after the call, the world
after the call. -/
def Delete (builder : Option (MultiNetworkPolicyBuilder σ S)) (w : World σ (Call S)) :
    Option (Option GoError × Option (MultiNetworkPolicyBuilder σ S) × World σ (Call S)) :=
  match validate builder with
  | (builder, false, err) => some (err, builder, w)
  | (builder, true, _) =>
    match Exists builder w with
    | none => none
    | some (false, builder, w) =>
      some (some (GoError.errorf
        "multiNetworkPolicy cannot be deleted because it does not exist" []), builder, w)
    | some (true, builder, w) =>
      match builder with
      | none => none
      | some b =>
        match b.apiClient, b.Definition with
        | some c, some d =>
          let r := c.callDelete w d.Namespace d.Name
          match r.1 with
          | some err =>
            some (some (GoError.wrapf "cannot delete MachineConfig: %w" (GoError.client err)),
              some b, r.2)
          | none => some (none, some { b with Object := none }, r.2)
        | _, _ => none

/-- The method `Update`: the error, the receiver after the call (which is also
the returned builder), the world after the call. -/
def Update (builder : Option (MultiNetworkPolicyBuilder σ S)) (w : World σ (Call S)) :
    Option (Option GoError × Option (MultiNetworkPolicyBuilder σ S) × World σ (Call S)) :=
  match validate builder with
  | (builder, false, err) => some (err, builder, w)
  | (builder, true, _) =>
    match builder with
    | none => none
    | some b =>
      match b.apiClient, b.Definition with
      | some c, some d =>
        let r := c.callUpdate w d.Namespace d
        some (toError r.1.2, some { b with Object := r.1.1 }, r.2)
      | _, _ => none

/-- The function `Pull`: the returned builder pointer, the error, the world
after the call. -/
def Pull [Inhabited S] (apiClient : Option (Settings σ S)) (name nsname : String)
    (w : World σ (Call S)) :
    Option (Option (MultiNetworkPolicyBuilder σ S) × Option GoError × World σ (Call S)) :=
  let builder : MultiNetworkPolicyBuilder σ S :=
    { apiClient := apiClient
      Definition := some { Name := name, Namespace := nsname, Rest := default }
      Object := none
      errorMsg := "" }
  let builder :=
    if name = "" then
      { builder with errorMsg := "multiNetworkPolicy 'name' cannot be empty" }
    else builder
  let builder :=
    if nsname = "" then
      { builder with errorMsg := "multiNetworkPolicy 'namespace' cannot be empty" }
    else builder
  if builder.errorMsg ≠ "" then
    some (none, some (GoError.errorf
      "failed to pull multiNetworkPolicy object due to the following error: %s"
      [builder.errorMsg]), w)
  else
    match Exists (some builder) w with
    | none => none
    | some (false, _, w) =>
      some (none, some (GoError.errorf
        "multiNetworkPolicy object %s doesn't exist in namespace %s" [name, nsname]), w)
    | some (true, none, _) => none
    | some (true, some builder, w) =>
      some (some { builder with Definition := builder.Object }, none, w)

end networkpolicy

/-! ## pkg/argocd/argocd.go -/

namespace argocd

/-- The key `goclient.ObjectKey`. -/
structure ObjectKey where
  Name : String
  Namespace : String
deriving DecidableEq

/-- A call on the controller-runtime client. -/
inductive Call (S : Type) where
  | Get (key : ObjectKey)
  | Create (obj : Resource S)
  | Delete (obj : Resource S)
deriving DecidableEq

/-- The controller-runtime client behind a non-nil `*clients.Settings`.  `Get`
is always handed a fresh, empty `ArgoCD` object; its first result is what that
object holds after the call.  `Create` and `Delete` are taken to read the
object they are passed and not to write to it. -/
structure Settings (σ S : Type) where
  Get : σ → ObjectKey → (Resource S × Option StatusError) × σ
  Create : σ → Resource S → Option StatusError × σ
  Delete : σ → Resource S → Option StatusError × σ

variable {σ S : Type}

/-- The call `apiClient.Get(ctx, key, bmh)`, recorded. -/
def Settings.callGet (c : Settings σ S) (w : World σ (Call S)) (key : ObjectKey) :
    (Resource S × Option StatusError) × World σ (Call S) :=
  ((c.Get w.store key).1,
    { store := (c.Get w.store key).2, calls := w.calls ++ [Call.Get key] })

/-- The call `apiClient.Create(ctx, obj)`, recorded. -/
def Settings.callCreate (c : Settings σ S) (w : World σ (Call S)) (obj : Resource S) :
    Option StatusError × World σ (Call S) :=
  ((c.Create w.store obj).1,
    { store := (c.Create w.store obj).2, calls := w.calls ++ [Call.Create obj] })

/-- The call `apiClient.Delete(ctx, obj)`, recorded. -/
def Settings.callDelete (c : Settings σ S) (w : World σ (Call S)) (obj : Resource S) :
    Option StatusError × World σ (Call S) :=
  ((c.Delete w.store obj).1,
    { store := (c.Delete w.store obj).2, calls := w.calls ++ [Call.Delete obj] })

/-- The struct `ArgoCDBuilder`. -/
structure ArgoCDBuilder (σ S : Type) where
  Definition : Option (Resource S)
  Object : Option (Resource S)
  apiClient : Option (Settings σ S)
  errorMsg : String

/-- The method `validate`: the receiver after the call, the boolean and the
error. -/
def validate (builder : Option (ArgoCDBuilder σ S)) :
    Option (ArgoCDBuilder σ S) × Bool × Option GoError :=
  let resourceCRD := "ArgoCDBuilder"
  match builder with
  | none => (none, false, some (GoError.errorf "error: received nil %s builder" [resourceCRD]))
  | some builder =>
    let builder :=
      if builder.Definition.isNone then
        { builder with errorMsg := msg.UndefinedCrdObjectErrString resourceCRD }
      else builder
    let builder :=
      if builder.apiClient.isNone then
        { builder with errorMsg := resourceCRD ++ " builder cannot have nil apiClient" }
      else builder
    if builder.errorMsg ≠ "" then
      (some builder, false, some (GoError.errorf builder.errorMsg []))
    else
      (some builder, true, none)

/-- The method `Get`: the returned object and error, the receiver after the
call, the world after the call. -/
def Get (builder : Option (ArgoCDBuilder σ S)) (w : World σ (Call S)) :
    Option ((Option (Resource S) × Option GoError) × Option (ArgoCDBuilder σ S) ×
      World σ (Call S)) :=
  match validate builder with
  | (builder, false, err) => some ((none, err), builder, w)
  | (builder, true, _) =>
    match builder with
    | none => none
    | some b =>
      match b.apiClient, b.Definition with
      | some c, some d =>
        let r := c.callGet w { Name := d.Name, Namespace := d.Namespace }
        let bmh := r.1.1
        let err := toError r.1.2
        if err ≠ none then some ((none, err), some b, r.2)
        else some ((some bmh, err), some b, r.2)
      | _, _ => none

/-- The method `Exists`: the boolean, the receiver after the call, the world
after the call. -/
def Exists (builder : Option (ArgoCDBuilder σ S)) (w : World σ (Call S)) :
    Option (Bool × Option (ArgoCDBuilder σ S) × World σ (Call S)) :=
  match validate builder with
  | (builder, false, _) => some (false, builder, w)
  | (builder, true, _) =>
    match Get builder w with
    | none => none
    | some (_, none, _) => none
    | some ((obj, err), some b, w) =>
      some (err.isNone || !IsNotFound err, some { b with Object := obj }, w)

/-- The method `Create`: the error, the receiver after the call (which is also
the returned builder), the world after the call. -/
def Create (builder : Option (ArgoCDBuilder σ S)) (w : World σ (Call S)) :
    Option (Option GoError × Option (ArgoCDBuilder σ S) × World σ (Call S)) :=
  match validate builder with
  | (builder, false, err) => some (err, builder, w)
  | (builder, true, _) =>
    match Exists builder w with
    | none => none
    | some (true, builder, w) => some (none, builder, w)
    | some (false, builder, w) =>
      match builder with
      | none => none
      | some b =>
        match b.apiClient, b.Definition with
        | some c, some d =>
          let r := c.callCreate w d
          let err := toError r.1
          if err = none then some (err, some { b with Object := b.Definition }, r.2)
          else some (err, some b, r.2)
        | _, _ => none

/-- The method `Delete`: the error, the receiver after the call (which is also
the returned builder), the world after the call. -/
def Delete (builder : Option (ArgoCDBuilder σ S)) (w : World σ (Call S)) :
    Option (Option GoError × Option (ArgoCDBuilder σ S) × World σ (Call S)) :=
  match validate builder with
  | (builder, false, err) => some (err, builder, w)
  | (builder, true, _) =>
    match Exists builder w with
    | none => none
    | some (false, builder, w) =>
      some (some (GoError.errorf
        "ArgoCDBuilder cannot be deleted because it does not exist" []), builder, w)
    | some (true, builder, w) =>
      match builder with
      | none => none
      | some b =>
        match b.apiClient, b.Definition with
        | some c, some d =>
          let r := c.callDelete w d
          match r.1 with
          | some err =>
            some (some (GoError.wrapf "can not delete ArgoCDBuilder: %w" (GoError.client err)),
              some b, r.2)
          | none => some (none, some { b with Object := none }, r.2)
        | _, _ => none

/-- The function `ArgoCDPull`: the returned builder pointer, the error, the
world after the call. -/
def ArgoCDPull [Inhabited S] (apiClient : Option (Settings σ S)) (name nsname : String)
    (w : World σ (Call S)) :
    Option (Option (ArgoCDBuilder σ S) × Option GoError × World σ (Call S)) :=
  let builder : ArgoCDBuilder σ S :=
    { apiClient := apiClient
      Definition := some { Name := name, Namespace := nsname, Rest := default }
      Object := none
      errorMsg := "" }
  let builder :=
    if name = "" then
      { builder with errorMsg := "ArgoCDBuilder 'name' cannot be empty" }
    else builder
  let builder :=
    if nsname = "" then
      { builder with errorMsg := "ArgoCDBuilder 'namespace' cannot be empty" }
    else builder
  match Exists (some builder) w with
  | none => none
  | some (false, _, w) =>
    some (none, some (GoError.errorf
      "ArgoCDBuilder object %s doesn't exist in namespace %s" [name, nsname]), w)
  | some (true, none, _) => none
  | some (true, some builder, w) =>
    some (some { builder with Definition := builder.Object }, none, w)

end argocd

/-! ## Stores

The claims about whole scenarios speak of a store in which `Get` reports
not-found exactly for absent keys, a create inserts and a delete removes.
`Lawful` says so of a client, relative to a notion `present` of which keys the
store state holds; `memStore` is an in-memory store of that kind. -/

namespace networkpolicy

/-- A typed client whose `Get` reports not-found exactly for the absent keys and
leaves presence as it was, whose `Create` of an absent key succeeds and makes
the key present, and whose `Delete` of a present key succeeds and makes the key
absent. -/
structure Lawful {σ S : Type} (c : Settings σ S) (present : σ → String → String → Prop) :
    Prop where
  get_notFound : ∀ s ns n, IsNotFound (toError (c.Get s ns n).1.2) = true ↔ ¬ present s ns n
  get_present : ∀ s ns n ns' n', present (c.Get s ns n).2 ns' n' ↔ present s ns' n'
  create_ok : ∀ s (d : Resource S), ¬ present s d.Namespace d.Name →
    (c.Create s d.Namespace d).1.2 = none ∧ present (c.Create s d.Namespace d).2 d.Namespace d.Name
  delete_ok : ∀ s ns n, present s ns n →
    (c.Delete s ns n).1 = none ∧ ¬ present (c.Delete s ns n).2 ns n

/-- A typed client over a store as the idempotence of `Create` supposes it:
`Get` reports not-found exactly for the absent keys and leaves presence as it
was, and a create that succeeds makes the key present.  Nothing here says that
a create succeeds. -/
structure CreateLawful {σ S : Type} (c : Settings σ S)
    (present : σ → String → String → Prop) : Prop where
  get_notFound : ∀ s ns n, IsNotFound (toError (c.Get s ns n).1.2) = true ↔ ¬ present s ns n
  get_present : ∀ s ns n ns' n', present (c.Get s ns n).2 ns' n' ↔ present s ns' n'
  create_present : ∀ s (d : Resource S), (c.Create s d.Namespace d).1.2 = none →
    present (c.Create s d.Namespace d).2 d.Namespace d.Name

end networkpolicy

namespace argocd

/-- A controller-runtime client whose `Get` reports not-found exactly for the
absent keys and leaves presence as it was, whose `Create` of an absent object
succeeds and makes its key present, and whose `Delete` of a present object
succeeds and makes its key absent. -/
structure Lawful {σ S : Type} (c : Settings σ S) (present : σ → ObjectKey → Prop) : Prop where
  get_notFound : ∀ s key, IsNotFound (toError (c.Get s key).1.2) = true ↔ ¬ present s key
  get_present : ∀ s key key', present (c.Get s key).2 key' ↔ present s key'
  create_ok : ∀ s (d : Resource S), ¬ present s { Name := d.Name, Namespace := d.Namespace } →
    (c.Create s d).1 = none ∧
      present (c.Create s d).2 { Name := d.Name, Namespace := d.Namespace }
  delete_ok : ∀ s (d : Resource S), present s { Name := d.Name, Namespace := d.Namespace } →
    (c.Delete s d).1 = none ∧
      ¬ present (c.Delete s d).2 { Name := d.Name, Namespace := d.Namespace }

/-- A controller-runtime client over a store as the idempotence of `Create`
supposes it: `Get` reports not-found exactly for the absent keys and leaves
presence as it was, and a create that succeeds makes the key of the object
present.  Nothing here says that a create succeeds. -/
structure CreateLawful {σ S : Type} (c : Settings σ S) (present : σ → ObjectKey → Prop) :
    Prop where
  get_notFound : ∀ s key, IsNotFound (toError (c.Get s key).1.2) = true ↔ ¬ present s key
  get_present : ∀ s key key', present (c.Get s key).2 key' ↔ present s key'
  create_present : ∀ s (d : Resource S), (c.Create s d).1 = none →
    present (c.Create s d).2 { Name := d.Name, Namespace := d.Namespace }

end argocd

namespace memStore

variable {S : Type}

/-- The object stored under a namespace and a name, if any. -/
def lookup (s : List (Resource S)) (ns name : String) : Option (Resource S) :=
  s.find? (fun o => decide (o.Namespace = ns) && decide (o.Name = name))

/-- The store without the objects under a namespace and a name. -/
def remove (s : List (Resource S)) (ns name : String) : List (Resource S) :=
  s.filter (fun o => !(decide (o.Namespace = ns) && decide (o.Name = name)))

/-- The not-found error of the store. -/
def notFound (name : String) : StatusError :=
  { msg := name ++ " not found", notFound := true }

/-- The already-exists error of the store. -/
def alreadyExists (name : String) : StatusError :=
  { msg := name ++ " already exists", notFound := false }

/-- The error of a create or update whose object is not in the namespace of the
request. -/
def badRequest : StatusError :=
  { msg := "the namespace of the provided object does not match the namespace sent on the request",
    notFound := false }

/-- The typed client over the in-memory store.  As the generated Kubernetes
clients do, it returns a non-nil empty object next to an error. -/
def typedClient [Inhabited S] : networkpolicy.Settings (List (Resource S)) S where
  Get := fun s ns name =>
    match lookup s ns name with
    | some o => ((some o, none), s)
    | none => ((some { Name := "", Namespace := "", Rest := default }, some (notFound name)), s)
  Create := fun s ns obj =>
    if obj.Namespace ≠ ns then
      ((some { Name := "", Namespace := "", Rest := default }, some badRequest), s)
    else
      match lookup s ns obj.Name with
      | some _ =>
        ((some { Name := "", Namespace := "", Rest := default }, some (alreadyExists obj.Name)), s)
      | none => ((some obj, none), obj :: s)
  Update := fun s ns obj =>
    if obj.Namespace ≠ ns then
      ((some { Name := "", Namespace := "", Rest := default }, some badRequest), s)
    else
      match lookup s ns obj.Name with
      | some _ => ((some obj, none), obj :: remove s ns obj.Name)
      | none =>
        ((some { Name := "", Namespace := "", Rest := default }, some (notFound obj.Name)), s)
  Delete := fun s ns name =>
    match lookup s ns name with
    | some _ => (none, remove s ns name)
    | none => (some (notFound name), s)

/-- The controller-runtime client over the in-memory store.  On an error `Get`
leaves the object it was handed empty. -/
def runtimeClient [Inhabited S] : argocd.Settings (List (Resource S)) S where
  Get := fun s key =>
    match lookup s key.Namespace key.Name with
    | some o => ((o, none), s)
    | none => (({ Name := "", Namespace := "", Rest := default }, some (notFound key.Name)), s)
  Create := fun s obj =>
    match lookup s obj.Namespace obj.Name with
    | some _ => (some (alreadyExists obj.Name), s)
    | none => (none, obj :: s)
  Delete := fun s obj =>
    match lookup s obj.Namespace obj.Name with
    | some _ => (none, remove s obj.Namespace obj.Name)
    | none => (some (notFound obj.Name), s)

/-- The empty store with no call issued yet. -/
def emptyWorld (κ : Type) : World (List (Resource S)) κ :=
  { store := [], calls := [] }

/-- A store that holds the resource of the scenario, with no call issued yet. -/
def populatedWorld (κ : Type) : World (List (Resource Nat)) κ :=
  { store := [{ Name := "peer-one", Namespace := "metallb-system", Rest := 5 }], calls := [] }

/-- A store that holds the ArgoCD resource of the examples, with no call issued
yet. -/
def populatedArgoWorld (κ : Type) : World (List (Resource Nat)) κ :=
  { store := [{ Name := "argocd", Namespace := "openshift-gitops", Rest := 7 }], calls := [] }

/-- The error of a call the caller is not allowed to make. -/
def forbidden : StatusError :=
  { msg := "forbidden", notFound := false }

/-- A controller-runtime client that may read the in-memory store and may not
write it. -/
def readOnlyRuntimeClient [Inhabited S] : argocd.Settings (List (Resource S)) S where
  Get := runtimeClient.Get
  Create := fun s _ => (some forbidden, s)
  Delete := fun s _ => (some forbidden, s)

/-- A typed client that may read the in-memory store and may not write it. -/
def readOnlyTypedClient [Inhabited S] : networkpolicy.Settings (List (Resource S)) S where
  Get := typedClient.Get
  Create := fun s _ _ =>
    ((some { Name := "", Namespace := "", Rest := default }, some forbidden), s)
  Update := fun s _ _ =>
    ((some { Name := "", Namespace := "", Rest := default }, some forbidden), s)
  Delete := fun s _ _ => (some forbidden, s)

/-- The builder of the scenario of the spec, over the read-only client. -/
def readOnlyPolicyBuilder : networkpolicy.MultiNetworkPolicyBuilder (List (Resource Nat)) Nat :=
  networkpolicy.NewMultiNetworkPolicyBuilder (some readOnlyTypedClient)
    "peer-one" "metallb-system"

/-- A controller-runtime client every call of which is refused. -/
def refusedRuntimeClient [Inhabited S] : argocd.Settings (List (Resource S)) S where
  Get := fun s _ => (({ Name := "", Namespace := "", Rest := default }, some forbidden), s)
  Create := fun s _ => (some forbidden, s)
  Delete := fun s _ => (some forbidden, s)

/-- An ArgoCD builder over the read-only client that still holds the object of
an earlier fetch. -/
def staleArgoBuilder : argocd.ArgoCDBuilder (List (Resource Nat)) Nat :=
  { Definition := some { Name := "argocd", Namespace := "openshift-gitops", Rest := 0 }
    Object := some { Name := "argocd", Namespace := "openshift-gitops", Rest := 7 }
    apiClient := some readOnlyRuntimeClient
    errorMsg := "" }

/-- An ArgoCD builder over the in-memory store that still holds the object of
an earlier fetch. -/
def heldArgoBuilder : argocd.ArgoCDBuilder (List (Resource Nat)) Nat :=
  { Definition := some { Name := "argocd", Namespace := "openshift-gitops", Rest := 0 }
    Object := some { Name := "argocd", Namespace := "openshift-gitops", Rest := 7 }
    apiClient := some runtimeClient
    errorMsg := "" }

/-- The builder of the scenario of the spec, over the in-memory store. -/
def policyBuilder : networkpolicy.MultiNetworkPolicyBuilder (List (Resource Nat)) Nat :=
  networkpolicy.NewMultiNetworkPolicyBuilder (some typedClient) "peer-one" "metallb-system"

/-- An ArgoCD builder over the in-memory store. -/
def argoBuilder : argocd.ArgoCDBuilder (List (Resource Nat)) Nat :=
  { Definition := some { Name := "argocd", Namespace := "openshift-gitops", Rest := 0 }
    Object := none
    apiClient := some runtimeClient
    errorMsg := "" }

end memStore

/-! ## pkg/networkpolicy/multinetingressrule.go

Conventions of this part.

* A Go slice is taken by value: `none` is the nil slice and `some l` a non-nil
  slice holding `l`.  Sharing of a backing array between two slices, and sharing
  of the definition between the builder and a fragment handed out earlier, are
  not modelled.
* Every method of `IngressRuleBuilder` reads a field of the receiver before
  anything else, and none tests the receiver against nil: the methods are
  modelled on a non-nil receiver, and `none` as a result is the run-time panic
  (a nil `definition`, an index out of range).
* `net.ParseCIDR` is a function of the Go library; the methods that call it
  take it as the parameter `ParseCIDR`, which yields the error it returns.
-/

/-- A Go slice by value: `none` is the nil slice, `some l` a non-nil slice. -/
abbrev Slice (α : Type) := Option (List α)

/-- The slice `append(s, x)`. -/
def Slice.append {α : Type} (s : Slice α) (x : α) : Slice α :=
  some (s.getD [] ++ [x])

/-- The number `len(s)`. -/
def Slice.len {α : Type} (s : Slice α) : Nat :=
  (s.getD []).length

/-- The assignment to `s[len(s)-1]` of what `f` makes of that element, `f`
yielding `none` when it panics.  With no element the index is out of range and
the assignment panics. -/
def Slice.updateLast {α : Type} (s : Slice α) (f : α → Option α) : Option (Slice α) :=
  match s with
  | none => none
  | some l =>
    match l.getLast? with
    | none => none
    | some x =>
      match f x with
      | none => none
      | some y => some (some (l.dropLast ++ [y]))

namespace intstr

/-- The struct `intstr.IntOrString`; `Kind` is its field `Type`, 0 for
`intstr.Int` and 1 for `intstr.String`. -/
structure IntOrString where
  Kind : Nat
  IntVal : Int
  StrVal : String
deriving DecidableEq

/-- The function `intstr.FromInt`, with the conversion of its `int` argument to
`int32`. -/
def FromInt (val : Int) : IntOrString :=
  { Kind := 0, IntVal := (val + 2 ^ 31) % 2 ^ 32 - 2 ^ 31, StrVal := "" }

end intstr

namespace networkpolicy

/-- The struct `v1beta1.IPBlock`. -/
structure IPBlock where
  CIDR : String
  Except : Slice String
deriving DecidableEq

/-- The struct `v1beta1.MultiNetworkPolicyPort`; a `v1.Protocol` is a string. -/
structure MultiNetworkPolicyPort where
  Protocol : Option String
  Port : Option intstr.IntOrString
  EndPort : Option Int
deriving DecidableEq

/-- The struct `v1beta1.MultiNetworkPolicyPeer`, over the type `L` of
`metaV1.LabelSelector`. -/
structure MultiNetworkPolicyPeer (L : Type) where
  PodSelector : Option L
  NamespaceSelector : Option L
  IPBlock : Option IPBlock
deriving DecidableEq

/-- The struct `v1beta1.MultiNetworkPolicyIngressRule`. -/
structure MultiNetworkPolicyIngressRule (L : Type) where
  Ports : Slice MultiNetworkPolicyPort
  From : Slice (MultiNetworkPolicyPeer L)
deriving DecidableEq

/-- The struct `IngressRuleBuilder`. -/
structure IngressRuleBuilder (L : Type) where
  definition : Option (MultiNetworkPolicyIngressRule L)
  errorMsg : String
deriving DecidableEq

variable {L : Type}

/-- The constructor `NewIngressRuleBuilder`. -/
def NewIngressRuleBuilder : IngressRuleBuilder L :=
  { definition := some { Ports := none, From := none }, errorMsg := "" }

/-- The method `WithPortAndProtocol`; a `uint16` port is a natural number below
65536. -/
def WithPortAndProtocol (builder : IngressRuleBuilder L) (port : Nat) (protocol : String) :
    Option (IngressRuleBuilder L) :=
  let builder :=
    if port = 0 then { builder with errorMsg := "Invalid port number can not be 0" }
    else builder
  if builder.errorMsg ≠ "" then some builder
  else
    let formattedPort := intstr.FromInt (Int.ofNat port)
    match builder.definition with
    | none => none
    | some definition =>
      some { builder with
        definition := some { definition with
          Ports := Slice.append definition.Ports
            { Port := some formattedPort, Protocol := some protocol, EndPort := none } } }

/-- The method `WithPeerPodSelector`. -/
def WithPeerPodSelector (builder : IngressRuleBuilder L) (podSelector : L) :
    Option (IngressRuleBuilder L) :=
  if builder.errorMsg ≠ "" then some builder
  else
    match builder.definition with
    | none => none
    | some definition =>
      some { builder with
        definition := some { definition with
          From := Slice.append definition.From
            { PodSelector := some podSelector, NamespaceSelector := none, IPBlock := none } } }

/-- The method `WithCIRD`; `except` is the variadic parameter, a list of
slices. -/
def WithCIRD (ParseCIDR : String → Option GoError) (builder : IngressRuleBuilder L)
    (cidr : String) (except : List (Slice String)) : Option (IngressRuleBuilder L) :=
  let err := ParseCIDR cidr
  let builder :=
    if err ≠ none then { builder with errorMsg := "Invalid CIDR argumetn " ++ cidr }
    else builder
  if builder.errorMsg ≠ "" then some builder
  else
    match builder.definition with
    | none => none
    | some definition =>
      let definition :=
        if definition.From.isNone then
          { definition with
            From := Slice.append definition.From
              { PodSelector := none, NamespaceSelector := none, IPBlock := none } }
        else definition
      match Slice.updateLast definition.From
          (fun peer => some { peer with IPBlock := some { CIDR := cidr, Except := none } }) with
      | none => none
      | some peers =>
        let definition := { definition with From := peers }
        match except with
        | [] => some { builder with definition := some definition }
        | except0 :: _ =>
          match Slice.updateLast definition.From
              (fun peer =>
                match peer.IPBlock with
                | none => none
                | some ipBlock => some { peer with IPBlock := some { ipBlock with Except := except0 } })
            with
          | none => none
          | some peers => some { builder with definition := some { definition with From := peers } }

/-- The method `WithPeerPodSelectorAndCIDR`. -/
def WithPeerPodSelectorAndCIDR (ParseCIDR : String → Option GoError)
    (builder : IngressRuleBuilder L) (podSelector : L) (cidr : String)
    (except : List (Slice String)) : Option (IngressRuleBuilder L) :=
  if builder.errorMsg ≠ "" then some builder
  else
    match WithPeerPodSelector builder podSelector with
    | none => none
    | some builder =>
      match WithCIRD ParseCIDR builder cidr except with
      | none => none
      | some builder => some builder

/-- The method `GetIngressRuleCfg`: the returned fragment and the error. -/
def GetIngressRuleCfg (builder : IngressRuleBuilder L) :
    Option (MultiNetworkPolicyIngressRule L) × Option GoError :=
  if builder.errorMsg ≠ "" then (none, some (GoError.errorf builder.errorMsg []))
  else (builder.definition, none)

/-- An `error` value that a function supplied by the caller returns; the
builder calls nothing of it but its method `Error`. -/
structure OptionError where
  Error : String
deriving DecidableEq

/-- A `*IngressRuleBuilder` that an option function returns: nil, the very
pointer it was handed, or a pointer to another builder, given by its state. -/
inductive BuilderRef (L : Type) where
  | nil
  | receiver
  | other (builder : IngressRuleBuilder L)
deriving DecidableEq

/-- What a call of an option function does: the state in which it leaves the
builder it was handed, the pointer it returns and the error it returns. -/
structure OptionResult (L : Type) where
  receiver : IngressRuleBuilder L
  returned : BuilderRef L
  err : Option OptionError

/-- The type `IngressAdditionalOptions`, a function of the state of the builder
it is handed. -/
abbrev IngressAdditionalOptions (L : Type) := IngressRuleBuilder L → OptionResult L

/-- What `WithOptions` leaves: the state of its receiver after the call and the
pointer it returns. -/
structure WithOptionsResult (L : Type) where
  receiver : IngressRuleBuilder L
  returned : BuilderRef L
deriving DecidableEq

/-- The method `WithOptions`; an element `none` of `options` is a nil function.
The declaration `builder, err := option(builder)` stands in the block of the
`if`, so it declares a new `builder` for that block: the receiver is what
every option is handed and what the method returns after the loop. -/
def WithOptions (builder : IngressRuleBuilder L)
    (options : List (Option (IngressAdditionalOptions L))) : Option (WithOptionsResult L) :=
  match options with
  | [] => some { receiver := builder, returned := BuilderRef.receiver }
  | none :: options => WithOptions builder options
  | some option :: options =>
    let r := option builder
    match r.err with
    | some err =>
      match r.returned with
      | BuilderRef.nil => none
      | BuilderRef.receiver =>
        some { receiver := { r.receiver with errorMsg := err.Error },
               returned := BuilderRef.receiver }
      | BuilderRef.other builder =>
        some { receiver := r.receiver,
               returned := BuilderRef.other { builder with errorMsg := err.Error } }
    | none => WithOptions r.receiver options

/-- A call of one of the four chained setters. -/
inductive SetterCall (L : Type) where
  | WithPortAndProtocol (port : Nat) (protocol : String)
  | WithPeerPodSelector (podSelector : L)
  | WithCIRD (cidr : String) (except : List (Slice String))
  | WithPeerPodSelectorAndCIDR (podSelector : L) (cidr : String) (except : List (Slice String))

/-- The call made on a builder. -/
def SetterCall.run (ParseCIDR : String → Option GoError) (builder : IngressRuleBuilder L) :
    SetterCall L → Option (IngressRuleBuilder L)
  | SetterCall.WithPortAndProtocol port protocol =>
    networkpolicy.WithPortAndProtocol builder port protocol
  | SetterCall.WithPeerPodSelector podSelector =>
    networkpolicy.WithPeerPodSelector builder podSelector
  | SetterCall.WithCIRD cidr except => networkpolicy.WithCIRD ParseCIDR builder cidr except
  | SetterCall.WithPeerPodSelectorAndCIDR podSelector cidr except =>
    networkpolicy.WithPeerPodSelectorAndCIDR ParseCIDR builder podSelector cidr except

/-- A chain of setter calls made on a builder, one after the other. -/
def runCalls (ParseCIDR : String → Option GoError) (builder : IngressRuleBuilder L) :
    List (SetterCall L) → Option (IngressRuleBuilder L)
  | [] => some builder
  | call :: calls =>
    match call.run ParseCIDR builder with
    | none => none
    | some builder => runCalls ParseCIDR builder calls

/-- A stand-in for `net.ParseCIDR` in the examples: it parses "10.0.0.0/24" and
refuses every other string, among them "bad" and "fe80::1%eth0", which hold no
slash, as `net.ParseCIDR` does for these three. -/
def exampleParseCIDR (cidr : String) : Option GoError :=
  if cidr = "10.0.0.0/24" then none
  else some (GoError.errorf "invalid CIDR address: %s" [cidr])

/-- A builder poisoned by a zero port. -/
def poisonedBuilder : IngressRuleBuilder String :=
  { definition := some { Ports := none, From := none },
    errorMsg := "Invalid port number can not be 0" }

/-- A builder poisoned by WithCIRD("fe80::1%eth0"), an address with a zone and
without a prefix length. -/
def zoneBuilder : IngressRuleBuilder String :=
  { definition := some { Ports := none, From := none },
    errorMsg := "Invalid CIDR argumetn fe80::1%eth0" }

/-- A builder whose peer list is a non-nil slice with no element. -/
def emptyPeersBuilder : IngressRuleBuilder String :=
  { definition := some { Ports := none, From := some [] }, errorMsg := "" }

/-- A builder that holds one port, 80 over TCP, and nothing else. -/
def portBuilder : IngressRuleBuilder String :=
  { definition := some
      { Ports := some [{ Protocol := some "TCP", Port := some (intstr.FromInt 80),
                         EndPort := none }],
        From := none },
    errorMsg := "" }

/-- An option function that leaves the builder it is handed alone and returns a
pointer to another builder, `portBuilder`, with a nil error. -/
def freshBuilderOption : IngressAdditionalOptions String :=
  fun builder =>
    { receiver := builder, returned := BuilderRef.other portBuilder, err := none }

/-- An option function that calls WithPeerPodSelector("app=web") on the builder
it is handed and returns that builder with a nil error. -/
def selectorOption : IngressAdditionalOptions String :=
  fun builder =>
    { receiver := (WithPeerPodSelector builder "app=web").getD builder,
      returned := BuilderRef.receiver, err := none }

/-- An option function that returns the builder it is handed and an error whose
text is "boom". -/
def failingOption : IngressAdditionalOptions String :=
  fun builder =>
    { receiver := builder, returned := BuilderRef.receiver, err := some { Error := "boom" } }

/-- An option function that returns the builder it is handed and an error whose
text is empty. -/
def silentFailingOption : IngressAdditionalOptions String :=
  fun builder =>
    { receiver := builder, returned := BuilderRef.receiver, err := some { Error := "" } }

/-- An option function that returns a nil builder and an error whose text is
"boom". -/
def nilFailingOption : IngressAdditionalOptions String :=
  fun builder =>
    { receiver := builder, returned := BuilderRef.nil, err := some { Error := "boom" } }

/-- The peer list of the builder's definition is nil or holds an entry, so that
the index `len(From)-1` is in range whenever the list is not nil. -/
def PeersInRange {L : Type} (builder : IngressRuleBuilder L) : Prop :=
  ∃ definition, builder.definition = some definition ∧
    (definition.From = none ∨ 0 < Slice.len definition.From)

end networkpolicy

/-! ## The text of an error made by `fmt.Errorf`

`fmt.Errorf(format)` makes an error whose text is `fmt.Sprintf(format)`.  The
package `fmt` is a library of Go; of its formatting the model holds the part
that the builders reach with a format and no operand, as the documentation of
the package gives it under "Format errors": text outside a verb is copied, `%%`
yields `%`, a `%` that ends the format yields `%!(NOVERB)`, and a verb `c` for
which no operand is left yields `%!c(MISSING)`.  A `%` followed by a flag, a
width, a precision or an argument index is outside the model. -/

namespace fmt

/-- A character that, right after a `%`, starts a flag, a width, a precision or
an argument index. -/
def startsDirective (c : Char) : Bool :=
  c = '#' || c = '+' || c = '-' || c = ' ' || c = '*' || c = '.' || c = '[' || c.isDigit

/-- The output of `fmt.Sprintf(format)` with no operand, on the characters of
the format; `afterPercent` says that the character before was the `%` that
opens a verb.  The result is `none` for a format outside the model. -/
def sprintfNoOperand (afterPercent : Bool) : List Char → Option (List Char)
  | [] => if afterPercent then some "%!(NOVERB)".data else some []
  | c :: rest =>
    if afterPercent then
      if c = '%' then (sprintfNoOperand false rest).map (fun out => '%' :: out)
      else if startsDirective c then none
      else (sprintfNoOperand false rest).map
        (fun out => "%!".data ++ [c] ++ "(MISSING)".data ++ out)
    else
      if c = '%' then sprintfNoOperand true rest
      else (sprintfNoOperand false rest).map (fun out => c :: out)

/-- The string `fmt.Sprintf(format)`, with no operand; `none` for a format
outside the model. -/
def Sprintf (format : String) : Option String :=
  (sprintfNoOperand false format.data).map String.mk

end fmt

/-- The text `err.Error()`: the message of a client error, and for an error
made by `fmt.Errorf(format)` with no operand the formatted format; `none` where
the model of `fmt` does not reach. -/
def GoError.Error : GoError → Option String
  | GoError.client e => some e.msg
  | GoError.errorf format [] => fmt.Sprintf format
  | GoError.errorf _ (_ :: _) => none
  | GoError.wrapf _ _ => none

/-! ## Validation -/

section Validation

variable {σ S : Type}

theorem networkpolicy.policy_undefined_msg_ne :
    msg.UndefinedCrdObjectErrString "NetworkPolicy" ≠ "" := by decide

theorem networkpolicy.policy_nil_client_msg_ne :
    "NetworkPolicy" ++ " builder cannot have nil apiClient" ≠ "" := by decide

theorem argocd.argo_undefined_msg_ne :
    msg.UndefinedCrdObjectErrString "ArgoCDBuilder" ≠ "" := by decide

theorem argocd.argo_nil_client_msg_ne :
    "ArgoCDBuilder" ++ " builder cannot have nil apiClient" ≠ "" := by decide

/-- A builder with a definition, a client and no error message passes
`validate` unchanged. -/
theorem networkpolicy.policy_validate_ok (b : networkpolicy.MultiNetworkPolicyBuilder σ S)
    (d : Resource S) (c : networkpolicy.Settings σ S)
    (hd : b.Definition = some d) (hc : b.apiClient = some c) (he : b.errorMsg = "") :
    networkpolicy.validate (some b) = (some b, true, none) := by
  simp [networkpolicy.validate, hd, hc, he]

/-- Passing `validate` means: a definition, a client and no error message. -/
theorem networkpolicy.policy_valid_parts (b : networkpolicy.MultiNetworkPolicyBuilder σ S)
    (hv : (networkpolicy.validate (some b)).2.1 = true) :
    ∃ d c, b.Definition = some d ∧ b.apiClient = some c ∧ b.errorMsg = "" := by
  rcases b with ⟨_ | d, o, _ | c, m⟩
  · simp [networkpolicy.validate, networkpolicy.policy_nil_client_msg_ne] at hv
  · simp [networkpolicy.validate, networkpolicy.policy_undefined_msg_ne] at hv
  · simp [networkpolicy.validate, networkpolicy.policy_nil_client_msg_ne] at hv
  · by_cases hm : m = ""
    · exact ⟨d, c, rfl, rfl, hm⟩
    · simp [networkpolicy.validate, hm] at hv

/-- A builder that fails `validate` keeps failing it with the same error. -/
theorem networkpolicy.policy_validate_fail (b : networkpolicy.MultiNetworkPolicyBuilder σ S)
    (hv : (networkpolicy.validate (some b)).2.1 = false) :
    ∃ b' : networkpolicy.MultiNetworkPolicyBuilder σ S,
      networkpolicy.validate (some b) = (some b', false, some (GoError.errorf b'.errorMsg [])) ∧
      networkpolicy.validate (some b') = (some b', false, some (GoError.errorf b'.errorMsg [])) ∧
      b'.errorMsg ≠ "" ∧ b'.Definition = b.Definition ∧ b'.Object = b.Object := by
  rcases b with ⟨_ | d, o, _ | c, m⟩
  · exact ⟨⟨none, o, none, "NetworkPolicy" ++ " builder cannot have nil apiClient"⟩,
      by simp [networkpolicy.validate],
      by simp [networkpolicy.validate], networkpolicy.policy_nil_client_msg_ne, rfl, rfl⟩
  · exact ⟨⟨none, o, some c, msg.UndefinedCrdObjectErrString "NetworkPolicy"⟩,
      by simp [networkpolicy.validate, networkpolicy.policy_undefined_msg_ne],
      by simp [networkpolicy.validate, networkpolicy.policy_undefined_msg_ne],
      networkpolicy.policy_undefined_msg_ne, rfl, rfl⟩
  · exact ⟨⟨some d, o, none, "NetworkPolicy" ++ " builder cannot have nil apiClient"⟩,
      by simp [networkpolicy.validate],
      by simp [networkpolicy.validate], networkpolicy.policy_nil_client_msg_ne, rfl, rfl⟩
  · by_cases hm : m = ""
    · simp [networkpolicy.validate, hm] at hv
    · exact ⟨⟨some d, o, some c, m⟩, by simp [networkpolicy.validate, hm],
        by simp [networkpolicy.validate, hm], hm, rfl, rfl⟩

/-- A builder with an error message fails `validate`. -/
theorem networkpolicy.policy_validate_poisoned (b : networkpolicy.MultiNetworkPolicyBuilder σ S)
    (he : b.errorMsg ≠ "") : (networkpolicy.validate (some b)).2.1 = false := by
  rcases b with ⟨_ | d, o, _ | c, m⟩
  · simp [networkpolicy.validate]
  · simp [networkpolicy.validate, networkpolicy.policy_undefined_msg_ne]
  · simp [networkpolicy.validate]
  · have hm : m ≠ "" := he
    simp [networkpolicy.validate, hm]

/-- A builder with a definition, a client and no error message passes
`validate` unchanged. -/
theorem argocd.argo_validate_ok (b : argocd.ArgoCDBuilder σ S)
    (d : Resource S) (c : argocd.Settings σ S)
    (hd : b.Definition = some d) (hc : b.apiClient = some c) (he : b.errorMsg = "") :
    argocd.validate (some b) = (some b, true, none) := by
  simp [argocd.validate, hd, hc, he]

/-- Passing `validate` means: a definition, a client and no error message. -/
theorem argocd.argo_valid_parts (b : argocd.ArgoCDBuilder σ S)
    (hv : (argocd.validate (some b)).2.1 = true) :
    ∃ d c, b.Definition = some d ∧ b.apiClient = some c ∧ b.errorMsg = "" := by
  rcases b with ⟨_ | d, o, _ | c, m⟩
  · simp [argocd.validate, argocd.argo_nil_client_msg_ne] at hv
  · simp [argocd.validate, argocd.argo_undefined_msg_ne] at hv
  · simp [argocd.validate, argocd.argo_nil_client_msg_ne] at hv
  · by_cases hm : m = ""
    · exact ⟨d, c, rfl, rfl, hm⟩
    · simp [argocd.validate, hm] at hv

/-- A builder that fails `validate` keeps failing it with the same error. -/
theorem argocd.argo_validate_fail (b : argocd.ArgoCDBuilder σ S)
    (hv : (argocd.validate (some b)).2.1 = false) :
    ∃ b' : argocd.ArgoCDBuilder σ S,
      argocd.validate (some b) = (some b', false, some (GoError.errorf b'.errorMsg [])) ∧
      argocd.validate (some b') = (some b', false, some (GoError.errorf b'.errorMsg [])) ∧
      b'.errorMsg ≠ "" ∧ b'.Definition = b.Definition ∧ b'.Object = b.Object := by
  rcases b with ⟨_ | d, o, _ | c, m⟩
  · exact ⟨⟨none, o, none, "ArgoCDBuilder" ++ " builder cannot have nil apiClient"⟩,
      by simp [argocd.validate],
      by simp [argocd.validate], argocd.argo_nil_client_msg_ne, rfl, rfl⟩
  · exact ⟨⟨none, o, some c, msg.UndefinedCrdObjectErrString "ArgoCDBuilder"⟩,
      by simp [argocd.validate, argocd.argo_undefined_msg_ne],
      by simp [argocd.validate, argocd.argo_undefined_msg_ne],
      argocd.argo_undefined_msg_ne, rfl, rfl⟩
  · exact ⟨⟨some d, o, none, "ArgoCDBuilder" ++ " builder cannot have nil apiClient"⟩,
      by simp [argocd.validate],
      by simp [argocd.validate], argocd.argo_nil_client_msg_ne, rfl, rfl⟩
  · by_cases hm : m = ""
    · simp [argocd.validate, hm] at hv
    · exact ⟨⟨some d, o, some c, m⟩, by simp [argocd.validate, hm],
        by simp [argocd.validate, hm], hm, rfl, rfl⟩

/-- A builder with an error message fails `validate`. -/
theorem argocd.argo_validate_poisoned (b : argocd.ArgoCDBuilder σ S)
    (he : b.errorMsg ≠ "") : (argocd.validate (some b)).2.1 = false := by
  rcases b with ⟨_ | d, o, _ | c, m⟩
  · simp [argocd.validate]
  · simp [argocd.validate, argocd.argo_undefined_msg_ne]
  · simp [argocd.validate]
  · have hm : m ≠ "" := he
    simp [argocd.validate, hm]

end Validation

/-! ## One step of each operation on a valid builder -/

section Steps

variable {σ S : Type}

theorem networkpolicy.policy_Exists_valid (b : networkpolicy.MultiNetworkPolicyBuilder σ S)
    (w : World σ (networkpolicy.Call S)) (d : Resource S) (c : networkpolicy.Settings σ S)
    (hd : b.Definition = some d) (hc : b.apiClient = some c) (he : b.errorMsg = "") :
    networkpolicy.Exists (some b) w =
      some (!IsNotFound (toError (c.callGet w d.Namespace d.Name).1.2),
        some { b with Object := (c.callGet w d.Namespace d.Name).1.1 },
        (c.callGet w d.Namespace d.Name).2) := by
  cases h : (c.Get w.store d.Namespace d.Name).1.2 <;>
    simp [networkpolicy.Exists, networkpolicy.policy_validate_ok b d c hd hc he, hd, hc,
      networkpolicy.Settings.callGet, h, toError, IsNotFound]

theorem networkpolicy.policy_Create_absent (b : networkpolicy.MultiNetworkPolicyBuilder σ S)
    (w : World σ (networkpolicy.Call S)) (d : Resource S) (c : networkpolicy.Settings σ S)
    (hd : b.Definition = some d) (hc : b.apiClient = some c) (he : b.errorMsg = "")
    (hnf : IsNotFound (toError (c.Get w.store d.Namespace d.Name).1.2) = true) :
    networkpolicy.Create (some b) w =
      some (toError (c.callCreate (c.callGet w d.Namespace d.Name).2 d.Namespace d).1.2,
        some { b with
          Object := (c.callCreate (c.callGet w d.Namespace d.Name).2 d.Namespace d).1.1 },
        (c.callCreate (c.callGet w d.Namespace d.Name).2 d.Namespace d).2) := by
  have hx := networkpolicy.policy_Exists_valid b w d c hd hc he
  have hnf' : IsNotFound (toError (c.callGet w d.Namespace d.Name).1.2) = true := hnf
  simp [networkpolicy.Create, networkpolicy.policy_validate_ok b d c hd hc he, hx, hnf', hd, hc]

theorem networkpolicy.policy_Create_present (b : networkpolicy.MultiNetworkPolicyBuilder σ S)
    (w : World σ (networkpolicy.Call S)) (d : Resource S) (c : networkpolicy.Settings σ S)
    (hd : b.Definition = some d) (hc : b.apiClient = some c) (he : b.errorMsg = "")
    (hnf : IsNotFound (toError (c.Get w.store d.Namespace d.Name).1.2) = false) :
    networkpolicy.Create (some b) w =
      some (none, some { b with Object := (c.callGet w d.Namespace d.Name).1.1 },
        (c.callGet w d.Namespace d.Name).2) := by
  have hx := networkpolicy.policy_Exists_valid b w d c hd hc he
  have hnf' : IsNotFound (toError (c.callGet w d.Namespace d.Name).1.2) = false := hnf
  simp [networkpolicy.Create, networkpolicy.policy_validate_ok b d c hd hc he, hx, hnf']

theorem networkpolicy.policy_Delete_absent (b : networkpolicy.MultiNetworkPolicyBuilder σ S)
    (w : World σ (networkpolicy.Call S)) (d : Resource S) (c : networkpolicy.Settings σ S)
    (hd : b.Definition = some d) (hc : b.apiClient = some c) (he : b.errorMsg = "")
    (hnf : IsNotFound (toError (c.Get w.store d.Namespace d.Name).1.2) = true) :
    networkpolicy.Delete (some b) w =
      some (some (GoError.errorf
          "multiNetworkPolicy cannot be deleted because it does not exist" []),
        some { b with Object := (c.callGet w d.Namespace d.Name).1.1 },
        (c.callGet w d.Namespace d.Name).2) := by
  have hx := networkpolicy.policy_Exists_valid b w d c hd hc he
  have hnf' : IsNotFound (toError (c.callGet w d.Namespace d.Name).1.2) = true := hnf
  simp [networkpolicy.Delete, networkpolicy.policy_validate_ok b d c hd hc he, hx, hnf']

theorem networkpolicy.policy_Delete_present (b : networkpolicy.MultiNetworkPolicyBuilder σ S)
    (w : World σ (networkpolicy.Call S)) (d : Resource S) (c : networkpolicy.Settings σ S)
    (hd : b.Definition = some d) (hc : b.apiClient = some c) (he : b.errorMsg = "")
    (hnf : IsNotFound (toError (c.Get w.store d.Namespace d.Name).1.2) = false) :
    networkpolicy.Delete (some b) w =
      match (c.callDelete (c.callGet w d.Namespace d.Name).2 d.Namespace d.Name).1 with
      | some err =>
        some (some (GoError.wrapf "cannot delete MachineConfig: %w" (GoError.client err)),
          some { b with Object := (c.callGet w d.Namespace d.Name).1.1 },
          (c.callDelete (c.callGet w d.Namespace d.Name).2 d.Namespace d.Name).2)
      | none =>
        some (none, some { b with Object := none },
          (c.callDelete (c.callGet w d.Namespace d.Name).2 d.Namespace d.Name).2) := by
  have hx := networkpolicy.policy_Exists_valid b w d c hd hc he
  have hnf' : IsNotFound (toError (c.callGet w d.Namespace d.Name).1.2) = false := hnf
  simp only [networkpolicy.Delete, networkpolicy.policy_validate_ok b d c hd hc he, hx, hnf',
    Bool.not_false, hd, hc]

theorem argocd.argo_Get_valid (b : argocd.ArgoCDBuilder σ S)
    (w : World σ (argocd.Call S)) (d : Resource S) (c : argocd.Settings σ S)
    (hd : b.Definition = some d) (hc : b.apiClient = some c) (he : b.errorMsg = "") :
    argocd.Get (some b) w =
      some ((if (c.callGet w { Name := d.Name, Namespace := d.Namespace }).1.2 = none then some (c.callGet w { Name := d.Name, Namespace := d.Namespace }).1.1 else none, toError (c.callGet w { Name := d.Name, Namespace := d.Namespace }).1.2),
        some b, (c.callGet w { Name := d.Name, Namespace := d.Namespace }).2) := by
  cases h : (c.Get w.store { Name := d.Name, Namespace := d.Namespace }).1.2 <;>
    simp [argocd.Get, argocd.argo_validate_ok b d c hd hc he, hd, hc,
      argocd.Settings.callGet, h, toError]

theorem argocd.argo_Exists_valid (b : argocd.ArgoCDBuilder σ S)
    (w : World σ (argocd.Call S)) (d : Resource S) (c : argocd.Settings σ S)
    (hd : b.Definition = some d) (hc : b.apiClient = some c) (he : b.errorMsg = "") :
    argocd.Exists (some b) w =
      some (!IsNotFound (toError (c.callGet w { Name := d.Name, Namespace := d.Namespace }).1.2),
        some { b with Object := if (c.callGet w { Name := d.Name, Namespace := d.Namespace }).1.2 = none then some (c.callGet w { Name := d.Name, Namespace := d.Namespace }).1.1 else none },
        (c.callGet w { Name := d.Name, Namespace := d.Namespace }).2) := by
  have hg := argocd.argo_Get_valid b w d c hd hc he
  cases h : (c.Get w.store { Name := d.Name, Namespace := d.Namespace }).1.2 <;>
    simp [argocd.Exists, argocd.argo_validate_ok b d c hd hc he, hg,
      argocd.Settings.callGet, h, toError, IsNotFound]

theorem argocd.argo_Create_absent (b : argocd.ArgoCDBuilder σ S)
    (w : World σ (argocd.Call S)) (d : Resource S) (c : argocd.Settings σ S)
    (hd : b.Definition = some d) (hc : b.apiClient = some c) (he : b.errorMsg = "")
    (hnf : IsNotFound (toError (c.Get w.store { Name := d.Name, Namespace := d.Namespace }).1.2) = true) :
    argocd.Create (some b) w =
      some (toError (c.callCreate (c.callGet w { Name := d.Name, Namespace := d.Namespace }).2 d).1,
        some { b with Object := if (c.callCreate (c.callGet w { Name := d.Name, Namespace := d.Namespace }).2 d).1 = none then some d else none },
        (c.callCreate (c.callGet w { Name := d.Name, Namespace := d.Namespace }).2 d).2) := by
  have hx := argocd.argo_Exists_valid b w d c hd hc he
  have hnf' : IsNotFound (toError (c.callGet w { Name := d.Name, Namespace := d.Namespace }).1.2) = true := hnf
  have hne : (c.callGet w { Name := d.Name, Namespace := d.Namespace }).1.2 ≠ none := by
    intro h0
    rw [h0] at hnf'
    simp [toError, IsNotFound] at hnf'
  cases h : (c.callCreate (c.callGet w { Name := d.Name, Namespace := d.Namespace }).2 d).1 <;>
    simp only [argocd.Create, argocd.argo_validate_ok b d c hd hc he, hx, hnf', Bool.not_true] <;>
    simp [hne, hd, hc, h, toError]

theorem argocd.argo_Create_present (b : argocd.ArgoCDBuilder σ S)
    (w : World σ (argocd.Call S)) (d : Resource S) (c : argocd.Settings σ S)
    (hd : b.Definition = some d) (hc : b.apiClient = some c) (he : b.errorMsg = "")
    (hnf : IsNotFound (toError (c.Get w.store { Name := d.Name, Namespace := d.Namespace }).1.2) = false) :
    argocd.Create (some b) w =
      some (none,
        some { b with Object := if (c.callGet w { Name := d.Name, Namespace := d.Namespace }).1.2 = none then some (c.callGet w { Name := d.Name, Namespace := d.Namespace }).1.1 else none },
        (c.callGet w { Name := d.Name, Namespace := d.Namespace }).2) := by
  have hx := argocd.argo_Exists_valid b w d c hd hc he
  have hnf' : IsNotFound (toError (c.callGet w { Name := d.Name, Namespace := d.Namespace }).1.2) = false := hnf
  simp [argocd.Create, argocd.argo_validate_ok b d c hd hc he, hx, hnf']

theorem argocd.argo_Delete_absent (b : argocd.ArgoCDBuilder σ S)
    (w : World σ (argocd.Call S)) (d : Resource S) (c : argocd.Settings σ S)
    (hd : b.Definition = some d) (hc : b.apiClient = some c) (he : b.errorMsg = "")
    (hnf : IsNotFound (toError (c.Get w.store { Name := d.Name, Namespace := d.Namespace }).1.2) = true) :
    argocd.Delete (some b) w =
      some (some (GoError.errorf "ArgoCDBuilder cannot be deleted because it does not exist" []),
        some { b with Object := none }, (c.callGet w { Name := d.Name, Namespace := d.Namespace }).2) := by
  have hx := argocd.argo_Exists_valid b w d c hd hc he
  have hnf' : IsNotFound (toError (c.callGet w { Name := d.Name, Namespace := d.Namespace }).1.2) = true := hnf
  have hne : (c.callGet w { Name := d.Name, Namespace := d.Namespace }).1.2 ≠ none := by
    intro h0
    rw [h0] at hnf'
    simp [toError, IsNotFound] at hnf'
  simp [argocd.Delete, argocd.argo_validate_ok b d c hd hc he, hx, hnf', hne]

theorem argocd.argo_Delete_present (b : argocd.ArgoCDBuilder σ S)
    (w : World σ (argocd.Call S)) (d : Resource S) (c : argocd.Settings σ S)
    (hd : b.Definition = some d) (hc : b.apiClient = some c) (he : b.errorMsg = "")
    (hnf : IsNotFound (toError (c.Get w.store { Name := d.Name, Namespace := d.Namespace }).1.2) = false) :
    argocd.Delete (some b) w =
      match (c.callDelete (c.callGet w { Name := d.Name, Namespace := d.Namespace }).2 d).1 with
      | some err =>
        some (some (GoError.wrapf "can not delete ArgoCDBuilder: %w" (GoError.client err)),
          some { b with Object := if (c.callGet w { Name := d.Name, Namespace := d.Namespace }).1.2 = none then some (c.callGet w { Name := d.Name, Namespace := d.Namespace }).1.1 else none },
          (c.callDelete (c.callGet w { Name := d.Name, Namespace := d.Namespace }).2 d).2)
      | none => some (none, some { b with Object := none }, (c.callDelete (c.callGet w { Name := d.Name, Namespace := d.Namespace }).2 d).2) := by
  have hx := argocd.argo_Exists_valid b w d c hd hc he
  have hnf' : IsNotFound (toError (c.callGet w { Name := d.Name, Namespace := d.Namespace }).1.2) = false := hnf
  simp only [argocd.Delete, argocd.argo_validate_ok b d c hd hc he, hx, hnf',
    Bool.not_false, hd, hc]

end Steps

/-! ## The in-memory store is lawful -/

section MemStore

variable {S : Type}

theorem memStore.lookup_cons_self (s : List (Resource S)) (d : Resource S) :
    memStore.lookup (d :: s) d.Namespace d.Name = some d := by
  simp [memStore.lookup, List.find?]

theorem memStore.lookup_remove (s : List (Resource S)) (ns name : String) :
    memStore.lookup (memStore.remove s ns name) ns name = none := by
  simp only [memStore.lookup, memStore.remove, List.find?_eq_none, List.mem_filter]
  rintro x ⟨-, hx⟩
  simpa [imp_iff_not_or] using hx

/-- The typed client over the in-memory store is lawful for "the store holds an
object under the key". -/
theorem memStore.typedClient_lawful [Inhabited S] :
    networkpolicy.Lawful (memStore.typedClient : networkpolicy.Settings (List (Resource S)) S)
      (fun s ns n => (memStore.lookup s ns n).isSome = true) where
  get_notFound := by
    intro s ns n
    cases h : memStore.lookup s ns n <;>
      simp [memStore.typedClient, h, toError, IsNotFound, GoError.isNotFound, memStore.notFound]
  get_present := by
    intro s ns n ns' n'
    cases h : memStore.lookup s ns n <;> simp [memStore.typedClient, h]
  create_ok := by
    intro s d habs
    have h : memStore.lookup s d.Namespace d.Name = none := by
      cases h : memStore.lookup s d.Namespace d.Name
      · rfl
      · simp [h] at habs
    simp [memStore.typedClient, h, memStore.lookup_cons_self]
  delete_ok := by
    intro s ns n hpres
    cases h : memStore.lookup s ns n
    · simp [h] at hpres
    · simp [memStore.typedClient, h, memStore.lookup_remove]

/-- The controller-runtime client over the in-memory store is lawful for "the
store holds an object under the key". -/
theorem memStore.runtimeClient_lawful [Inhabited S] :
    argocd.Lawful (memStore.runtimeClient : argocd.Settings (List (Resource S)) S)
      (fun s key => (memStore.lookup s key.Namespace key.Name).isSome = true) where
  get_notFound := by
    intro s key
    cases h : memStore.lookup s key.Namespace key.Name <;>
      simp [memStore.runtimeClient, h, toError, IsNotFound, GoError.isNotFound,
        memStore.notFound]
  get_present := by
    intro s key key'
    cases h : memStore.lookup s key.Namespace key.Name <;> simp [memStore.runtimeClient, h]
  create_ok := by
    intro s d habs
    have h : memStore.lookup s d.Namespace d.Name = none := by
      cases h : memStore.lookup s d.Namespace d.Name
      · rfl
      · simp [h] at habs
    simp [memStore.runtimeClient, h, memStore.lookup_cons_self]
  delete_ok := by
    intro s d hpres
    cases h : memStore.lookup s d.Namespace d.Name
    · simp [h] at hpres
    · simp [memStore.runtimeClient, h, memStore.lookup_remove]

/-- The typed client over the in-memory store: a create that succeeds makes the
key present. -/
theorem memStore.typedClient_createLawful [Inhabited S] :
    networkpolicy.CreateLawful
      (memStore.typedClient : networkpolicy.Settings (List (Resource S)) S)
      (fun s ns n => (memStore.lookup s ns n).isSome = true) where
  get_notFound := memStore.typedClient_lawful.get_notFound
  get_present := memStore.typedClient_lawful.get_present
  create_present := by
    intro s d
    cases h : memStore.lookup s d.Namespace d.Name <;>
      simp [memStore.typedClient, h, memStore.lookup_cons_self]

/-- The controller-runtime client over the in-memory store: a create that
succeeds makes the key present. -/
theorem memStore.runtimeClient_createLawful [Inhabited S] :
    argocd.CreateLawful (memStore.runtimeClient : argocd.Settings (List (Resource S)) S)
      (fun s key => (memStore.lookup s key.Namespace key.Name).isSome = true) where
  get_notFound := memStore.runtimeClient_lawful.get_notFound
  get_present := memStore.runtimeClient_lawful.get_present
  create_present := by
    intro s d
    cases h : memStore.lookup s d.Namespace d.Name <;>
      simp [memStore.runtimeClient, h, memStore.lookup_cons_self]

/-- The read-only typed client: its `Get` is that of the in-memory store, and
no create of it succeeds, so every create of it that succeeds makes the key
present. -/
theorem memStore.readOnlyTypedClient_createLawful [Inhabited S] :
    networkpolicy.CreateLawful
      (memStore.readOnlyTypedClient : networkpolicy.Settings (List (Resource S)) S)
      (fun s ns n => (memStore.lookup s ns n).isSome = true) where
  get_notFound := memStore.typedClient_lawful.get_notFound
  get_present := memStore.typedClient_lawful.get_present
  create_present := by
    intro s d h
    simp [memStore.readOnlyTypedClient] at h

end MemStore

/-! ## Steps over a lawful store -/

section LawfulSteps

variable {σ S : Type}

theorem networkpolicy.Lawful.exists_absent {c : networkpolicy.Settings σ S}
    {present : σ → String → String → Prop} (hl : networkpolicy.Lawful c present)
    (b : networkpolicy.MultiNetworkPolicyBuilder σ S) (w : World σ (networkpolicy.Call S))
    (d : Resource S) (hd : b.Definition = some d) (hc : b.apiClient = some c)
    (he : b.errorMsg = "") (habs : ¬ present w.store d.Namespace d.Name) :
    ∃ b' w', networkpolicy.Exists (some b) w = some (false, some b', w') ∧
      b'.Definition = some d ∧ b'.apiClient = some c ∧ b'.errorMsg = "" ∧
      ¬ present w'.store d.Namespace d.Name := by
  have hnf : IsNotFound (toError (c.callGet w d.Namespace d.Name).1.2) = true :=
    (hl.get_notFound _ _ _).mpr habs
  have hx := networkpolicy.policy_Exists_valid b w d c hd hc he
  rw [hnf] at hx
  exact ⟨_, _, hx, hd, hc, he, by
    simpa [networkpolicy.Settings.callGet, hl.get_present] using habs⟩

theorem networkpolicy.Lawful.exists_present {c : networkpolicy.Settings σ S}
    {present : σ → String → String → Prop} (hl : networkpolicy.Lawful c present)
    (b : networkpolicy.MultiNetworkPolicyBuilder σ S) (w : World σ (networkpolicy.Call S))
    (d : Resource S) (hd : b.Definition = some d) (hc : b.apiClient = some c)
    (he : b.errorMsg = "") (hpres : present w.store d.Namespace d.Name) :
    ∃ b' w', networkpolicy.Exists (some b) w = some (true, some b', w') ∧
      b'.Definition = some d ∧ b'.apiClient = some c ∧ b'.errorMsg = "" ∧
      present w'.store d.Namespace d.Name := by
  have hnf : IsNotFound (toError (c.callGet w d.Namespace d.Name).1.2) = false := by
    rw [Bool.eq_false_iff]
    intro h
    exact (hl.get_notFound _ _ _).mp h hpres
  have hx := networkpolicy.policy_Exists_valid b w d c hd hc he
  rw [hnf] at hx
  exact ⟨_, _, hx, hd, hc, he, by
    simpa [networkpolicy.Settings.callGet, hl.get_present] using hpres⟩

theorem networkpolicy.Lawful.create_absent {c : networkpolicy.Settings σ S}
    {present : σ → String → String → Prop} (hl : networkpolicy.Lawful c present)
    (b : networkpolicy.MultiNetworkPolicyBuilder σ S) (w : World σ (networkpolicy.Call S))
    (d : Resource S) (hd : b.Definition = some d) (hc : b.apiClient = some c)
    (he : b.errorMsg = "") (habs : ¬ present w.store d.Namespace d.Name) :
    ∃ b' w', networkpolicy.Create (some b) w = some (none, some b', w') ∧
      b'.Definition = some d ∧ b'.apiClient = some c ∧ b'.errorMsg = "" ∧
      present w'.store d.Namespace d.Name := by
  have hnf : IsNotFound (toError (c.Get w.store d.Namespace d.Name).1.2) = true :=
    (hl.get_notFound _ _ _).mpr habs
  have habs1 : ¬ present (c.Get w.store d.Namespace d.Name).2 d.Namespace d.Name := by
    rw [hl.get_present]; exact habs
  obtain ⟨hok, hpres⟩ := hl.create_ok _ d habs1
  have h1 := networkpolicy.policy_Create_absent b w d c hd hc he hnf
  have hok' : toError (c.callCreate (c.callGet w d.Namespace d.Name).2 d.Namespace d).1.2
      = none := by
    simp [networkpolicy.Settings.callCreate, networkpolicy.Settings.callGet, hok, toError]
  rw [hok'] at h1
  exact ⟨_, _, h1, hd, hc, he, hpres⟩

theorem networkpolicy.Lawful.delete_present {c : networkpolicy.Settings σ S}
    {present : σ → String → String → Prop} (hl : networkpolicy.Lawful c present)
    (b : networkpolicy.MultiNetworkPolicyBuilder σ S) (w : World σ (networkpolicy.Call S))
    (d : Resource S) (hd : b.Definition = some d) (hc : b.apiClient = some c)
    (he : b.errorMsg = "") (hpres : present w.store d.Namespace d.Name) :
    ∃ b' w', networkpolicy.Delete (some b) w = some (none, some b', w') ∧
      b'.Definition = some d ∧ b'.apiClient = some c ∧ b'.errorMsg = "" ∧
      ¬ present w'.store d.Namespace d.Name := by
  have hnf : IsNotFound (toError (c.Get w.store d.Namespace d.Name).1.2) = false := by
    rw [Bool.eq_false_iff]
    intro h
    exact (hl.get_notFound _ _ _).mp h hpres
  have hpres1 : present (c.Get w.store d.Namespace d.Name).2 d.Namespace d.Name := by
    rw [hl.get_present]; exact hpres
  obtain ⟨hok, habs⟩ := hl.delete_ok _ _ _ hpres1
  have h1 := networkpolicy.policy_Delete_present b w d c hd hc he hnf
  have hok' : (c.callDelete (c.callGet w d.Namespace d.Name).2 d.Namespace d.Name).1
      = none := by
    simp [networkpolicy.Settings.callDelete, networkpolicy.Settings.callGet, hok]
  rw [hok'] at h1
  exact ⟨_, _, h1, hd, hc, he, habs⟩

theorem networkpolicy.Lawful.delete_absent {c : networkpolicy.Settings σ S}
    {present : σ → String → String → Prop} (hl : networkpolicy.Lawful c present)
    (b : networkpolicy.MultiNetworkPolicyBuilder σ S) (w : World σ (networkpolicy.Call S))
    (d : Resource S) (hd : b.Definition = some d) (hc : b.apiClient = some c)
    (he : b.errorMsg = "") (habs : ¬ present w.store d.Namespace d.Name) :
    ∃ b' w', networkpolicy.Delete (some b) w =
      some (some (GoError.errorf
        "multiNetworkPolicy cannot be deleted because it does not exist" []), some b', w') := by
  have hnf : IsNotFound (toError (c.Get w.store d.Namespace d.Name).1.2) = true :=
    (hl.get_notFound _ _ _).mpr habs
  exact ⟨_, _, networkpolicy.policy_Delete_absent b w d c hd hc he hnf⟩

end LawfulSteps

/-! ## The lifecycle operations -/

section Lifecycle

variable {σ S : Type}

/-- C1: on a MultiNetworkPolicyBuilder whose errorMsg is non-empty, Create,
Update and Delete each return the same non-nil error, Exists returns false, the
world (store state and list of issued calls) is what it was, so no call reaches
the store, and the builder they leave behind still has a non-empty errorMsg and
fails validate with that same error. The constructor yields such a builder
whenever the name or the namespace is empty. -/
theorem poisoned_builder_short_circuits [Inhabited S]
    (b : networkpolicy.MultiNetworkPolicyBuilder σ S) (w : World σ (networkpolicy.Call S))
    (he : b.errorMsg ≠ "") :
    (∃ (b' : networkpolicy.MultiNetworkPolicyBuilder σ S) (e : GoError),
      networkpolicy.Create (some b) w = some (some e, some b', w) ∧
      networkpolicy.Update (some b) w = some (some e, some b', w) ∧
      networkpolicy.Delete (some b) w = some (some e, some b', w) ∧
      networkpolicy.Exists (some b) w = some (false, some b', w) ∧
      b'.errorMsg ≠ "" ∧
      e = GoError.errorf b'.errorMsg [] ∧
      networkpolicy.validate (some b') = (some b', false, some e)) ∧
    (∀ (c : Option (networkpolicy.Settings σ S)) (name nsname : String),
      name = "" ∨ nsname = "" →
      (networkpolicy.NewMultiNetworkPolicyBuilder c name nsname).errorMsg ≠ "") := by
  obtain ⟨b', h1, h2, h3, -, -⟩ :=
    networkpolicy.policy_validate_fail b (networkpolicy.policy_validate_poisoned b he)
  refine ⟨⟨b', GoError.errorf b'.errorMsg [], ?_, ?_, ?_, ?_, h3, rfl, h2⟩, ?_⟩
  · simp [networkpolicy.Create, h1]
  · simp [networkpolicy.Update, h1]
  · simp [networkpolicy.Delete, h1]
  · simp [networkpolicy.Exists, h1]
  · intro c name nsname h
    by_cases hn : name = "" <;> by_cases hs : nsname = "" <;>
      simp_all [networkpolicy.NewMultiNetworkPolicyBuilder]

/-- Witness of C1: the builder the constructor makes for an empty name. -/
theorem poisoned_builder_short_circuits_witness :
    (networkpolicy.NewMultiNetworkPolicyBuilder
        (some (memStore.typedClient : networkpolicy.Settings (List (Resource Nat)) Nat))
        "" "metallb-system").errorMsg ≠ "" ∧
    ∃ e, (networkpolicy.Create (some (networkpolicy.NewMultiNetworkPolicyBuilder
        (some (memStore.typedClient : networkpolicy.Settings (List (Resource Nat)) Nat))
        "" "metallb-system")) (memStore.emptyWorld _)).map Prod.fst = some (some e) := by
  refine ⟨by decide, ?_⟩
  obtain ⟨⟨b', e, h, -⟩, -⟩ := poisoned_builder_short_circuits
    (networkpolicy.NewMultiNetworkPolicyBuilder
      (some (memStore.typedClient : networkpolicy.Settings (List (Resource Nat)) Nat))
      "" "metallb-system") (memStore.emptyWorld _) (by decide)
  exact ⟨e, by rw [h]; rfl⟩

/-- C2: validate returns false with a non-nil error exactly when the builder is
nil, or its Definition is nil, or its apiClient is nil, or its errorMsg is
non-empty; in every other case it returns true with a nil error and the builder
is what it was. With a nil Definition and a non-nil client the error carries
the undefined-object message of the resource kind. This holds of the validate
of MultiNetworkPolicyBuilder and of the validate of ArgoCDBuilder. -/
theorem validate_fails_exactly_when_unusable
    (builder : Option (networkpolicy.MultiNetworkPolicyBuilder σ S))
    (abuilder : Option (argocd.ArgoCDBuilder σ S)) :
    (((∃ e, (networkpolicy.validate builder).2 = (false, some e)) ↔
        (builder = none ∨ ∃ b, builder = some b ∧
          (b.Definition = none ∨ b.apiClient = none ∨ b.errorMsg ≠ ""))) ∧
      (¬ (builder = none ∨ ∃ b, builder = some b ∧
          (b.Definition = none ∨ b.apiClient = none ∨ b.errorMsg ≠ "")) →
        networkpolicy.validate builder = (builder, true, none)) ∧
      (∀ b c, builder = some b → b.Definition = none → b.apiClient = some c →
        (networkpolicy.validate builder).2 =
          (false, some (GoError.errorf (msg.UndefinedCrdObjectErrString "NetworkPolicy") [])))) ∧
    (((∃ e, (argocd.validate abuilder).2 = (false, some e)) ↔
        (abuilder = none ∨ ∃ b, abuilder = some b ∧
          (b.Definition = none ∨ b.apiClient = none ∨ b.errorMsg ≠ ""))) ∧
      (¬ (abuilder = none ∨ ∃ b, abuilder = some b ∧
          (b.Definition = none ∨ b.apiClient = none ∨ b.errorMsg ≠ "")) →
        argocd.validate abuilder = (abuilder, true, none)) ∧
      (∀ b c, abuilder = some b → b.Definition = none → b.apiClient = some c →
        (argocd.validate abuilder).2 =
          (false, some (GoError.errorf (msg.UndefinedCrdObjectErrString "ArgoCDBuilder") [])))) := by
  constructor
  · cases builder with
    | none => simp [networkpolicy.validate]
    | some b =>
      rcases b with ⟨_ | d, o, _ | c, m⟩ <;> by_cases hm : m = "" <;>
        simp [networkpolicy.validate, networkpolicy.policy_undefined_msg_ne, hm] <;>
        (intro b' c' hb hd hc; subst hb; simp at hd hc)
  · cases abuilder with
    | none => simp [argocd.validate]
    | some b =>
      rcases b with ⟨_ | d, o, _ | c, m⟩ <;> by_cases hm : m = "" <;>
        simp [argocd.validate, argocd.argo_undefined_msg_ne, hm] <;>
        (intro b' c' hb hd hc; subst hb; simp at hd hc)

/-- Witness of C2: a builder with a nil Definition over the in-memory client,
and the builder the constructor makes for a proper name and namespace. -/
theorem validate_fails_exactly_when_unusable_witness :
    (networkpolicy.validate (some
        ({ Definition := none, Object := none, apiClient := some memStore.typedClient,
           errorMsg := "" } :
          networkpolicy.MultiNetworkPolicyBuilder (List (Resource Nat)) Nat))).2 =
      (false, some (GoError.errorf (msg.UndefinedCrdObjectErrString "NetworkPolicy") [])) ∧
    networkpolicy.validate (some (networkpolicy.NewMultiNetworkPolicyBuilder
        (some (memStore.typedClient : networkpolicy.Settings (List (Resource Nat)) Nat))
        "peer-one" "metallb-system")) =
      (some (networkpolicy.NewMultiNetworkPolicyBuilder (some memStore.typedClient)
        "peer-one" "metallb-system"), true, none) :=
  ⟨(validate_fails_exactly_when_unusable
      (some { Definition := none, Object := none, apiClient := some memStore.typedClient,
              errorMsg := "" })
      (none : Option (argocd.ArgoCDBuilder (List (Resource Nat)) Nat))).1.2.2
      _ memStore.typedClient rfl rfl rfl,
    (validate_fails_exactly_when_unusable
      (some (networkpolicy.NewMultiNetworkPolicyBuilder (some memStore.typedClient)
        "peer-one" "metallb-system"))
      (none : Option (argocd.ArgoCDBuilder (List (Resource Nat)) Nat))).1.2.1
      (by simp [networkpolicy.NewMultiNetworkPolicyBuilder])⟩

/-- C3: on a builder that passes validate, Exists issues exactly one store Get,
keyed by the namespace and name of the Definition, sets Object to the result of
that Get (for ArgoCDBuilder, whose Get hands back nil next to an error: to the
fetched object on success and to nil on failure), and returns false if and only
if the Get failed with a not-found error; it returns true when the Get
succeeded and when it failed with another error. This holds of
MultiNetworkPolicyBuilder and of ArgoCDBuilder. -/
theorem exists_reflects_get
    (b : networkpolicy.MultiNetworkPolicyBuilder σ S) (w : World σ (networkpolicy.Call S))
    (d : Resource S) (c : networkpolicy.Settings σ S)
    (hv : (networkpolicy.validate (some b)).2.1 = true)
    (hd : b.Definition = some d) (hc : b.apiClient = some c)
    (ab : argocd.ArgoCDBuilder σ S) (aw : World σ (argocd.Call S))
    (ad : Resource S) (ac : argocd.Settings σ S)
    (ahv : (argocd.validate (some ab)).2.1 = true)
    (ahd : ab.Definition = some ad) (ahc : ab.apiClient = some ac) :
    (∃ ret : Bool,
      networkpolicy.Exists (some b) w =
        some (ret, some { b with Object := (c.Get w.store d.Namespace d.Name).1.1 },
          { store := (c.Get w.store d.Namespace d.Name).2,
            calls := w.calls ++ [networkpolicy.Call.Get d.Namespace d.Name] }) ∧
      (ret = false ↔
        ∃ e, (c.Get w.store d.Namespace d.Name).1.2 = some e ∧ e.notFound = true) ∧
      ((c.Get w.store d.Namespace d.Name).1.2 = none → ret = true) ∧
      (∀ e, (c.Get w.store d.Namespace d.Name).1.2 = some e → e.notFound = false →
        ret = true)) ∧
    (∃ ret : Bool,
      argocd.Exists (some ab) aw =
        some (ret,
          some { ab with Object :=
            (if (ac.Get aw.store { Name := ad.Name, Namespace := ad.Namespace }).1.2 = none
              then some (ac.Get aw.store { Name := ad.Name, Namespace := ad.Namespace }).1.1
              else none) },
          { store := (ac.Get aw.store { Name := ad.Name, Namespace := ad.Namespace }).2,
            calls := aw.calls ++
              [argocd.Call.Get { Name := ad.Name, Namespace := ad.Namespace }] }) ∧
      (ret = false ↔
        ∃ e, (ac.Get aw.store { Name := ad.Name, Namespace := ad.Namespace }).1.2 = some e ∧
          e.notFound = true) ∧
      ((ac.Get aw.store { Name := ad.Name, Namespace := ad.Namespace }).1.2 = none →
        ret = true) ∧
      (∀ e, (ac.Get aw.store { Name := ad.Name, Namespace := ad.Namespace }).1.2 = some e →
        e.notFound = false → ret = true)) := by
  obtain ⟨d', c', hd', hc', he⟩ := networkpolicy.policy_valid_parts b hv
  obtain ⟨ad', ac', ahd', ahc', ahe⟩ := argocd.argo_valid_parts ab ahv
  constructor
  · refine ⟨(toError (c.Get w.store d.Namespace d.Name).1.2).isNone ||
      !IsNotFound (toError (c.Get w.store d.Namespace d.Name).1.2), ?_, ?_⟩
    · simp [networkpolicy.Exists, networkpolicy.policy_validate_ok b d c hd hc he, hd, hc,
        networkpolicy.Settings.callGet]
    · cases h : (c.Get w.store d.Namespace d.Name).1.2 <;>
        simp [networkpolicy.Settings.callGet, h, toError, IsNotFound, GoError.isNotFound]
  · refine ⟨(toError (ac.Get aw.store { Name := ad.Name, Namespace := ad.Namespace }).1.2).isNone ||
      !IsNotFound (toError (ac.Get aw.store { Name := ad.Name, Namespace := ad.Namespace }).1.2),
      ?_, ?_⟩
    · cases h : (ac.Get aw.store { Name := ad.Name, Namespace := ad.Namespace }).1.2 <;>
        simp [argocd.Exists, argocd.Get, argocd.argo_validate_ok ab ad ac ahd ahc ahe, ahd, ahc,
          argocd.Settings.callGet, h, toError]
    · cases h : (ac.Get aw.store { Name := ad.Name, Namespace := ad.Namespace }).1.2 <;>
        simp [argocd.Settings.callGet, h, toError, IsNotFound, GoError.isNotFound]

/-- Witness of C3: the scenario builder and an ArgoCD builder over the empty
in-memory store, where Exists of the former returns false. -/
theorem exists_reflects_get_witness :
    (networkpolicy.validate (some memStore.policyBuilder)).2.1 = true ∧
    (argocd.validate (some memStore.argoBuilder)).2.1 = true ∧
    (networkpolicy.Exists (some memStore.policyBuilder) (memStore.emptyWorld _)).map Prod.fst =
      some false := by
  refine ⟨by decide, by decide, ?_⟩
  obtain ⟨⟨ret, h1, h2, -⟩, -⟩ := exists_reflects_get
    memStore.policyBuilder (memStore.emptyWorld _)
    { Name := "peer-one", Namespace := "metallb-system", Rest := default } memStore.typedClient
    (by decide) rfl rfl
    memStore.argoBuilder (memStore.emptyWorld _)
    { Name := "argocd", Namespace := "openshift-gitops", Rest := 0 } memStore.runtimeClient
    (by decide) rfl rfl
  rw [h1, h2.mpr ⟨memStore.notFound "peer-one", rfl, rfl⟩]
  rfl

/-- Counterexample to C4: the read-only store reports not-found exactly for the
absent keys and none of its creates succeeds, so each of its creates that
succeeds makes the key present. On a valid builder whose resource is absent, two
successive Create calls issue two store-create calls, and the second Create
returns the error of the store. -/
theorem create_twice_on_refusing_store_counterexample :
    networkpolicy.CreateLawful
      (memStore.readOnlyTypedClient : networkpolicy.Settings (List (Resource Nat)) Nat)
      (fun s ns n => (memStore.lookup s ns n).isSome = true) ∧
    (networkpolicy.validate (some memStore.readOnlyPolicyBuilder)).2.1 = true ∧
    ¬ ((memStore.lookup ([] : List (Resource Nat)) "metallb-system" "peer-one").isSome = true) ∧
    ((networkpolicy.Create (some memStore.readOnlyPolicyBuilder) (memStore.emptyWorld _)).bind
        (fun r => networkpolicy.Create r.2.1 r.2.2)).map (fun r => (r.1, r.2.2.calls)) =
      some (some (GoError.client memStore.forbidden),
        [networkpolicy.Call.Get "metallb-system" "peer-one",
          networkpolicy.Call.Create "metallb-system"
            { Name := "peer-one", Namespace := "metallb-system", Rest := 0 },
          networkpolicy.Call.Get "metallb-system" "peer-one",
          networkpolicy.Call.Create "metallb-system"
            { Name := "peer-one", Namespace := "metallb-system", Rest := 0 }]) :=
  ⟨memStore.readOnlyTypedClient_createLawful, by decide, by decide, by decide⟩

/-- C4, amended: over a store whose Get reports not-found exactly for the absent
keys and in which a create that succeeds makes the key present, take a valid
builder whose resource is absent at first. If the store-create call that the
first Create issues succeeds, then two successive Create calls issue exactly
three store calls, a Get, one create and a Get, and both return a nil error.
This holds of MultiNetworkPolicyBuilder and of ArgoCDBuilder. -/
theorem create_twice_creates_once_after_success
    (c : networkpolicy.Settings σ S) (present : σ → String → String → Prop)
    (hl : networkpolicy.CreateLawful c present)
    (b : networkpolicy.MultiNetworkPolicyBuilder σ S) (w : World σ (networkpolicy.Call S))
    (d : Resource S)
    (hv : (networkpolicy.validate (some b)).2.1 = true)
    (hd : b.Definition = some d) (hc : b.apiClient = some c)
    (habs : ¬ present w.store d.Namespace d.Name)
    (hok : (c.Create (c.Get w.store d.Namespace d.Name).2 d.Namespace d).1.2 = none)
    (ac : argocd.Settings σ S) (apresent : σ → argocd.ObjectKey → Prop)
    (ahl : argocd.CreateLawful ac apresent)
    (ab : argocd.ArgoCDBuilder σ S) (aw : World σ (argocd.Call S)) (ad : Resource S)
    (ahv : (argocd.validate (some ab)).2.1 = true)
    (ahd : ab.Definition = some ad) (ahc : ab.apiClient = some ac)
    (ahabs : ¬ apresent aw.store { Name := ad.Name, Namespace := ad.Namespace })
    (ahok : (ac.Create (ac.Get aw.store { Name := ad.Name, Namespace := ad.Namespace }).2
      ad).1 = none) :
    (∃ b1 w1 b2 w2,
      networkpolicy.Create (some b) w = some (none, some b1, w1) ∧
      networkpolicy.Create (some b1) w1 = some (none, some b2, w2) ∧
      w2.calls = w.calls ++
        [networkpolicy.Call.Get d.Namespace d.Name, networkpolicy.Call.Create d.Namespace d,
          networkpolicy.Call.Get d.Namespace d.Name]) ∧
    (∃ b1 w1 b2 w2,
      argocd.Create (some ab) aw = some (none, some b1, w1) ∧
      argocd.Create (some b1) w1 = some (none, some b2, w2) ∧
      w2.calls = aw.calls ++
        [argocd.Call.Get { Name := ad.Name, Namespace := ad.Namespace }, argocd.Call.Create ad,
          argocd.Call.Get { Name := ad.Name, Namespace := ad.Namespace }]) := by
  obtain ⟨-, -, -, -, he⟩ := networkpolicy.policy_valid_parts b hv
  obtain ⟨-, -, -, -, ahe⟩ := argocd.argo_valid_parts ab ahv
  constructor
  · have hnf : IsNotFound (toError (c.Get w.store d.Namespace d.Name).1.2) = true :=
      (hl.get_notFound _ _ _).mpr habs
    have hpres := hl.create_present _ d hok
    have h1 := networkpolicy.policy_Create_absent b w d c hd hc he hnf
    have hnf2 : IsNotFound (toError (c.Get
        (c.callCreate (c.callGet w d.Namespace d.Name).2 d.Namespace d).2.store
        d.Namespace d.Name).1.2) = false := by
      rw [Bool.eq_false_iff]
      intro h
      exact (hl.get_notFound _ _ _).mp h hpres
    have h2 := networkpolicy.policy_Create_present
      { b with Object := (c.callCreate (c.callGet w d.Namespace d.Name).2 d.Namespace d).1.1 }
      (c.callCreate (c.callGet w d.Namespace d.Name).2 d.Namespace d).2 d c hd hc he hnf2
    have hok' : toError (c.callCreate (c.callGet w d.Namespace d.Name).2 d.Namespace d).1.2
        = none := by
      simp [networkpolicy.Settings.callCreate, networkpolicy.Settings.callGet, hok, toError]
    rw [hok'] at h1
    exact ⟨_, _, _, _, h1, h2, by
      simp [networkpolicy.Settings.callCreate, networkpolicy.Settings.callGet]⟩
  · have hnf : IsNotFound (toError
        (ac.Get aw.store { Name := ad.Name, Namespace := ad.Namespace }).1.2) = true :=
      (ahl.get_notFound _ _).mpr ahabs
    have hpres := ahl.create_present _ ad ahok
    have h1 := argocd.argo_Create_absent ab aw ad ac ahd ahc ahe hnf
    have hok' : (ac.callCreate
        (ac.callGet aw { Name := ad.Name, Namespace := ad.Namespace }).2 ad).1 = none := by
      simp [argocd.Settings.callCreate, argocd.Settings.callGet, ahok]
    have hnf2 : IsNotFound (toError (ac.Get
        (ac.callCreate (ac.callGet aw { Name := ad.Name, Namespace := ad.Namespace }).2 ad).2.store
        { Name := ad.Name, Namespace := ad.Namespace }).1.2) = false := by
      rw [Bool.eq_false_iff]
      intro h
      exact (ahl.get_notFound _ _).mp h hpres
    have h2 := argocd.argo_Create_present
      { ab with Object := some ad }
      (ac.callCreate (ac.callGet aw { Name := ad.Name, Namespace := ad.Namespace }).2 ad).2
      ad ac ahd ahc ahe hnf2
    rw [hok'] at h1
    simp only [toError, Option.map_none', if_true] at h1
    exact ⟨_, _, _, _, h1, h2, by
      simp [argocd.Settings.callCreate, argocd.Settings.callGet]⟩

/-- Witness of C4: the scenario builder and an ArgoCD builder over the empty
in-memory store, whose create of the absent resource succeeds. -/
theorem create_twice_creates_once_after_success_witness :
    (networkpolicy.validate (some memStore.policyBuilder)).2.1 = true ∧
    ¬ ((memStore.lookup ([] : List (Resource Nat)) "metallb-system" "peer-one").isSome = true) ∧
    ∃ b1 w1 b2 w2,
      networkpolicy.Create (some memStore.policyBuilder) (memStore.emptyWorld _) =
        some (none, some b1, w1) ∧
      networkpolicy.Create (some b1) w1 = some (none, some b2, w2) ∧
      w2.calls =
        [networkpolicy.Call.Get "metallb-system" "peer-one",
          networkpolicy.Call.Create "metallb-system"
            { Name := "peer-one", Namespace := "metallb-system", Rest := 0 },
          networkpolicy.Call.Get "metallb-system" "peer-one"] :=
  ⟨by decide, by decide,
    (create_twice_creates_once_after_success memStore.typedClient _
      memStore.typedClient_createLawful
      memStore.policyBuilder (memStore.emptyWorld _)
      { Name := "peer-one", Namespace := "metallb-system", Rest := 0 }
      (by decide) rfl rfl (by decide) rfl
      memStore.runtimeClient _ memStore.runtimeClient_createLawful
      memStore.argoBuilder (memStore.emptyWorld _)
      { Name := "argocd", Namespace := "openshift-gitops", Rest := 0 }
      (by decide) rfl rfl (by decide) rfl).1⟩

/-- Counterexample to C5: an ArgoCD builder that holds an object from an earlier
fetch, over a store that holds nothing and refuses the create. Create returns
the store's error, and Object, non-nil before the call, is nil after it. -/
theorem create_failure_keeps_object_counterexample :
    (argocd.validate (some memStore.staleArgoBuilder)).2.1 = true ∧
    (memStore.readOnlyRuntimeClient.Create ([] : List (Resource Nat))
        { Name := "argocd", Namespace := "openshift-gitops", Rest := 0 }).1 =
      some memStore.forbidden ∧
    memStore.staleArgoBuilder.Object =
      some { Name := "argocd", Namespace := "openshift-gitops", Rest := 7 } ∧
    (argocd.Create (some memStore.staleArgoBuilder) (memStore.emptyWorld _)).map
        (fun r => (r.1, r.2.1.map (fun b => b.Object))) =
      some (some (GoError.client memStore.forbidden), some none) := by
  refine ⟨by decide, rfl, rfl, by decide⟩

/-- C5, amended: on a valid builder whose resource the store's Get reports as
not found, if the store's create call fails with error e then Create returns
exactly e, unwrapped. Object is not kept: the Get of the existence check has
overwritten it before the create is tried, and on an ArgoCDBuilder the failed
create leaves it at nil, the result of that failed Get. This holds of
MultiNetworkPolicyBuilder and of ArgoCDBuilder. -/
theorem create_failure_returns_store_error
    (b : networkpolicy.MultiNetworkPolicyBuilder σ S) (w : World σ (networkpolicy.Call S))
    (d : Resource S) (c : networkpolicy.Settings σ S) (e : StatusError)
    (hv : (networkpolicy.validate (some b)).2.1 = true)
    (hd : b.Definition = some d) (hc : b.apiClient = some c)
    (hnf : IsNotFound (toError (c.Get w.store d.Namespace d.Name).1.2) = true)
    (hfail : (c.Create (c.Get w.store d.Namespace d.Name).2 d.Namespace d).1.2 = some e)
    (ab : argocd.ArgoCDBuilder σ S) (aw : World σ (argocd.Call S))
    (ad : Resource S) (ac : argocd.Settings σ S) (ae : StatusError)
    (ahv : (argocd.validate (some ab)).2.1 = true)
    (ahd : ab.Definition = some ad) (ahc : ab.apiClient = some ac)
    (ahnf : IsNotFound (toError
      (ac.Get aw.store { Name := ad.Name, Namespace := ad.Namespace }).1.2) = true)
    (ahfail : (ac.Create (ac.Get aw.store { Name := ad.Name, Namespace := ad.Namespace }).2
      ad).1 = some ae) :
    (∃ b' w', networkpolicy.Create (some b) w = some (some (GoError.client e), some b', w') ∧
      w'.calls = w.calls ++
        [networkpolicy.Call.Get d.Namespace d.Name, networkpolicy.Call.Create d.Namespace d]) ∧
    (∃ w', argocd.Create (some ab) aw =
        some (some (GoError.client ae), some { ab with Object := none }, w') ∧
      w'.calls = aw.calls ++
        [argocd.Call.Get { Name := ad.Name, Namespace := ad.Namespace },
          argocd.Call.Create ad]) := by
  obtain ⟨-, -, -, -, he⟩ := networkpolicy.policy_valid_parts b hv
  obtain ⟨-, -, -, -, ahe⟩ := argocd.argo_valid_parts ab ahv
  constructor
  · have h1 := networkpolicy.policy_Create_absent b w d c hd hc he hnf
    have hf : toError (c.callCreate (c.callGet w d.Namespace d.Name).2 d.Namespace d).1.2 =
        some (GoError.client e) := by
      simp [networkpolicy.Settings.callCreate, networkpolicy.Settings.callGet, hfail, toError]
    rw [hf] at h1
    exact ⟨_, _, h1, by simp [networkpolicy.Settings.callCreate, networkpolicy.Settings.callGet]⟩
  · have h1 := argocd.argo_Create_absent ab aw ad ac ahd ahc ahe ahnf
    have hf : (ac.callCreate (ac.callGet aw { Name := ad.Name, Namespace := ad.Namespace }).2
        ad).1 = some ae := by
      simp [argocd.Settings.callCreate, argocd.Settings.callGet, ahfail]
    rw [hf] at h1
    simp only [toError, Option.map_some', reduceCtorEq, if_false] at h1
    exact ⟨_, h1, by simp [argocd.Settings.callCreate, argocd.Settings.callGet]⟩

/-- Witness of C5: the scenario builder and the ArgoCD builder over the empty
store and the read-only clients. -/
theorem create_failure_returns_store_error_witness :
    (networkpolicy.validate (some memStore.readOnlyPolicyBuilder)).2.1 = true ∧
    (argocd.validate (some memStore.staleArgoBuilder)).2.1 = true ∧
    ∃ w', argocd.Create (some memStore.staleArgoBuilder) (memStore.emptyWorld _) =
        some (some (GoError.client memStore.forbidden),
          some { memStore.staleArgoBuilder with Object := none }, w') ∧
      w'.calls =
        [argocd.Call.Get { Name := "argocd", Namespace := "openshift-gitops" },
          argocd.Call.Create { Name := "argocd", Namespace := "openshift-gitops", Rest := 0 }] :=
  ⟨by decide, by decide,
    (create_failure_returns_store_error
      memStore.readOnlyPolicyBuilder (memStore.emptyWorld _)
      { Name := "peer-one", Namespace := "metallb-system", Rest := 0 }
      memStore.readOnlyTypedClient memStore.forbidden (by decide) rfl rfl rfl rfl
      memStore.staleArgoBuilder (memStore.emptyWorld _)
      { Name := "argocd", Namespace := "openshift-gitops", Rest := 0 }
      memStore.readOnlyRuntimeClient memStore.forbidden (by decide) rfl rfl rfl rfl).2⟩

/-- Counterexample to C6: an ArgoCD builder that holds the object of an earlier
fetch and whose resource is absent from the store. Delete fails with the
"cannot be deleted because it does not exist" error, and Object is nil
afterwards: the Exists pre-check has overwritten it, although the Delete did
not succeed. -/
theorem delete_failure_clears_object_counterexample :
    (argocd.validate (some memStore.heldArgoBuilder)).2.1 = true ∧
    memStore.heldArgoBuilder.Object =
      some { Name := "argocd", Namespace := "openshift-gitops", Rest := 7 } ∧
    (argocd.Delete (some memStore.heldArgoBuilder) (memStore.emptyWorld _)).map
        (fun r => (r.1, r.2.1.map (fun b => b.Object), r.2.2.calls)) =
      some (some (GoError.errorf "ArgoCDBuilder cannot be deleted because it does not exist" []),
        some none,
        [argocd.Call.Get { Name := "argocd", Namespace := "openshift-gitops" }]) :=
  ⟨by decide, rfl, by decide⟩

/-- C6, amended: Delete is not idempotent, and Object is assigned by the Exists
pre-check whether or not the Delete succeeds. On a valid builder:
if the store's Get reports not-found, Delete returns the non-nil "cannot be
deleted because it does not exist" error and issues the Get only, no
store-delete call, and Object is what the pre-check stored (the object the Get
returned; nil on ArgoCDBuilder);
Delete always returns, and whenever it returns a nil error the Get did not
report not-found, the store-delete call was issued and succeeded, and Object is
nil afterwards;
if the Get does not report not-found and the store-delete call succeeds, Delete
returns a nil error, Object is nil afterwards, the store is the one the
store-delete left, and exactly the Get and the store-delete were issued;
if the Get does not report not-found and the store-delete call fails, Delete
returns that error wrapped, and Object is what the pre-check stored.
This holds of MultiNetworkPolicyBuilder and of ArgoCDBuilder. -/
theorem delete_needs_existing_resource
    (b : networkpolicy.MultiNetworkPolicyBuilder σ S) (w : World σ (networkpolicy.Call S))
    (d : Resource S) (c : networkpolicy.Settings σ S)
    (hv : (networkpolicy.validate (some b)).2.1 = true)
    (hd : b.Definition = some d) (hc : b.apiClient = some c)
    (ab : argocd.ArgoCDBuilder σ S) (aw : World σ (argocd.Call S))
    (ad : Resource S) (ac : argocd.Settings σ S)
    (ahv : (argocd.validate (some ab)).2.1 = true)
    (ahd : ab.Definition = some ad) (ahc : ab.apiClient = some ac) :
    ((IsNotFound (toError (c.Get w.store d.Namespace d.Name).1.2) = true →
        ∃ b' w', networkpolicy.Delete (some b) w =
          some (some (GoError.errorf
            "multiNetworkPolicy cannot be deleted because it does not exist" []),
            some b', w') ∧
          b'.Object = (c.Get w.store d.Namespace d.Name).1.1 ∧
          w'.store = (c.Get w.store d.Namespace d.Name).2 ∧
          w'.calls = w.calls ++ [networkpolicy.Call.Get d.Namespace d.Name]) ∧
      (∃ err b' w', networkpolicy.Delete (some b) w = some (err, some b', w') ∧
        (err = none →
          IsNotFound (toError (c.Get w.store d.Namespace d.Name).1.2) = false ∧
          (c.Delete (c.Get w.store d.Namespace d.Name).2 d.Namespace d.Name).1 = none ∧
          b'.Object = none ∧
          w'.calls = w.calls ++ [networkpolicy.Call.Get d.Namespace d.Name,
            networkpolicy.Call.Delete d.Namespace d.Name])) ∧
      (IsNotFound (toError (c.Get w.store d.Namespace d.Name).1.2) = false →
        (c.Delete (c.Get w.store d.Namespace d.Name).2 d.Namespace d.Name).1 = none →
        ∃ b' w', networkpolicy.Delete (some b) w = some (none, some b', w') ∧
          b'.Object = none ∧
          w'.store = (c.Delete (c.Get w.store d.Namespace d.Name).2 d.Namespace d.Name).2 ∧
          w'.calls = w.calls ++ [networkpolicy.Call.Get d.Namespace d.Name,
            networkpolicy.Call.Delete d.Namespace d.Name]) ∧
      (∀ e, IsNotFound (toError (c.Get w.store d.Namespace d.Name).1.2) = false →
        (c.Delete (c.Get w.store d.Namespace d.Name).2 d.Namespace d.Name).1 = some e →
        ∃ b' w', networkpolicy.Delete (some b) w =
          some (some (GoError.wrapf "cannot delete MachineConfig: %w" (GoError.client e)),
            some b', w') ∧
          b'.Object = (c.Get w.store d.Namespace d.Name).1.1 ∧
          w'.store = (c.Delete (c.Get w.store d.Namespace d.Name).2 d.Namespace d.Name).2 ∧
          w'.calls = w.calls ++ [networkpolicy.Call.Get d.Namespace d.Name,
            networkpolicy.Call.Delete d.Namespace d.Name])) ∧
    ((IsNotFound (toError
          (ac.Get aw.store { Name := ad.Name, Namespace := ad.Namespace }).1.2) = true →
        ∃ b' w', argocd.Delete (some ab) aw =
          some (some (GoError.errorf
            "ArgoCDBuilder cannot be deleted because it does not exist" []),
            some b', w') ∧
          b'.Object = none ∧
          w'.store = (ac.Get aw.store { Name := ad.Name, Namespace := ad.Namespace }).2 ∧
          w'.calls = aw.calls ++
            [argocd.Call.Get { Name := ad.Name, Namespace := ad.Namespace }]) ∧
      (∃ err b' w', argocd.Delete (some ab) aw = some (err, some b', w') ∧
        (err = none →
          IsNotFound (toError
            (ac.Get aw.store { Name := ad.Name, Namespace := ad.Namespace }).1.2) = false ∧
          (ac.Delete (ac.Get aw.store { Name := ad.Name, Namespace := ad.Namespace }).2
            ad).1 = none ∧
          b'.Object = none ∧
          w'.calls = aw.calls ++
            [argocd.Call.Get { Name := ad.Name, Namespace := ad.Namespace },
              argocd.Call.Delete ad])) ∧
      (IsNotFound (toError
          (ac.Get aw.store { Name := ad.Name, Namespace := ad.Namespace }).1.2) = false →
        (ac.Delete (ac.Get aw.store { Name := ad.Name, Namespace := ad.Namespace }).2
          ad).1 = none →
        ∃ b' w', argocd.Delete (some ab) aw = some (none, some b', w') ∧
          b'.Object = none ∧
          w'.store =
            (ac.Delete (ac.Get aw.store { Name := ad.Name, Namespace := ad.Namespace }).2
              ad).2 ∧
          w'.calls = aw.calls ++
            [argocd.Call.Get { Name := ad.Name, Namespace := ad.Namespace },
              argocd.Call.Delete ad]) ∧
      (∀ e, IsNotFound (toError
          (ac.Get aw.store { Name := ad.Name, Namespace := ad.Namespace }).1.2) = false →
        (ac.Delete (ac.Get aw.store { Name := ad.Name, Namespace := ad.Namespace }).2
          ad).1 = some e →
        ∃ b' w', argocd.Delete (some ab) aw =
          some (some (GoError.wrapf "can not delete ArgoCDBuilder: %w" (GoError.client e)),
            some b', w') ∧
          b'.Object =
            (if (ac.Get aw.store { Name := ad.Name, Namespace := ad.Namespace }).1.2 = none
              then some (ac.Get aw.store { Name := ad.Name, Namespace := ad.Namespace }).1.1
              else none) ∧
          w'.store =
            (ac.Delete (ac.Get aw.store { Name := ad.Name, Namespace := ad.Namespace }).2
              ad).2 ∧
          w'.calls = aw.calls ++
            [argocd.Call.Get { Name := ad.Name, Namespace := ad.Namespace },
              argocd.Call.Delete ad])) := by
  obtain ⟨-, -, -, -, he⟩ := networkpolicy.policy_valid_parts b hv
  obtain ⟨-, -, -, -, ahe⟩ := argocd.argo_valid_parts ab ahv
  refine ⟨⟨?_, ?_, ?_, ?_⟩, ⟨?_, ?_, ?_, ?_⟩⟩
  · intro hnf
    exact ⟨_, _, networkpolicy.policy_Delete_absent b w d c hd hc he hnf, rfl, rfl,
      by simp [networkpolicy.Settings.callGet]⟩
  · cases hnf : IsNotFound (toError (c.Get w.store d.Namespace d.Name).1.2)
    · have h1 := networkpolicy.policy_Delete_present b w d c hd hc he hnf
      cases hdel : (c.callDelete (c.callGet w d.Namespace d.Name).2 d.Namespace d.Name).1
      · rw [hdel] at h1
        refine ⟨_, _, _, h1, fun _ => ⟨rfl, ?_, rfl, ?_⟩⟩
        · simpa [networkpolicy.Settings.callDelete, networkpolicy.Settings.callGet] using hdel
        · simp [networkpolicy.Settings.callDelete, networkpolicy.Settings.callGet]
      · rw [hdel] at h1
        exact ⟨_, _, _, h1, fun h => by simp at h⟩
    · exact ⟨_, _, _, networkpolicy.policy_Delete_absent b w d c hd hc he hnf, fun h => by simp at h⟩
  · intro hnf hdel
    have h1 := networkpolicy.policy_Delete_present b w d c hd hc he hnf
    have hdel' : (c.callDelete (c.callGet w d.Namespace d.Name).2 d.Namespace d.Name).1 =
        none := hdel
    rw [hdel'] at h1
    exact ⟨_, _, h1, rfl, rfl,
      by simp [networkpolicy.Settings.callDelete, networkpolicy.Settings.callGet]⟩
  · intro e hnf hdel
    have h1 := networkpolicy.policy_Delete_present b w d c hd hc he hnf
    have hdel' : (c.callDelete (c.callGet w d.Namespace d.Name).2 d.Namespace d.Name).1 =
        some e := hdel
    rw [hdel'] at h1
    exact ⟨_, _, h1, rfl, rfl,
      by simp [networkpolicy.Settings.callDelete, networkpolicy.Settings.callGet]⟩
  · intro hnf
    exact ⟨_, _, argocd.argo_Delete_absent ab aw ad ac ahd ahc ahe hnf, rfl, rfl,
      by simp [argocd.Settings.callGet]⟩
  · cases hnf : IsNotFound (toError
      (ac.Get aw.store { Name := ad.Name, Namespace := ad.Namespace }).1.2)
    · have h1 := argocd.argo_Delete_present ab aw ad ac ahd ahc ahe hnf
      cases hdel : (ac.callDelete
        (ac.callGet aw { Name := ad.Name, Namespace := ad.Namespace }).2 ad).1
      · rw [hdel] at h1
        refine ⟨_, _, _, h1, fun _ => ⟨rfl, ?_, rfl, ?_⟩⟩
        · simpa [argocd.Settings.callDelete, argocd.Settings.callGet] using hdel
        · simp [argocd.Settings.callDelete, argocd.Settings.callGet]
      · rw [hdel] at h1
        exact ⟨_, _, _, h1, fun h => by simp at h⟩
    · exact ⟨_, _, _, argocd.argo_Delete_absent ab aw ad ac ahd ahc ahe hnf, fun h => by simp at h⟩
  · intro hnf hdel
    have h1 := argocd.argo_Delete_present ab aw ad ac ahd ahc ahe hnf
    have hdel' : (ac.callDelete
        (ac.callGet aw { Name := ad.Name, Namespace := ad.Namespace }).2 ad).1 = none := hdel
    rw [hdel'] at h1
    exact ⟨_, _, h1, rfl, rfl, by simp [argocd.Settings.callDelete, argocd.Settings.callGet]⟩
  · intro e hnf hdel
    have h1 := argocd.argo_Delete_present ab aw ad ac ahd ahc ahe hnf
    have hdel' : (ac.callDelete
        (ac.callGet aw { Name := ad.Name, Namespace := ad.Namespace }).2 ad).1 = some e := hdel
    rw [hdel'] at h1
    exact ⟨_, _, h1, rfl, rfl, by simp [argocd.Settings.callDelete, argocd.Settings.callGet]⟩

/-- Witness of C6: both builders delete a resource that the in-memory store
holds: the error is nil, Object is nil, the store is empty afterwards and
exactly a Get and a store-delete were issued. -/
theorem delete_needs_existing_resource_witness :
    (networkpolicy.validate (some memStore.policyBuilder)).2.1 = true ∧
    (argocd.validate (some memStore.heldArgoBuilder)).2.1 = true ∧
    (∃ b' w', networkpolicy.Delete (some memStore.policyBuilder) (memStore.populatedWorld _) =
        some (none, some b', w') ∧
      b'.Object = none ∧ w'.store = [] ∧
      w'.calls = [networkpolicy.Call.Get "metallb-system" "peer-one",
        networkpolicy.Call.Delete "metallb-system" "peer-one"]) ∧
    (∃ b' w', argocd.Delete (some memStore.heldArgoBuilder) (memStore.populatedArgoWorld _) =
        some (none, some b', w') ∧
      b'.Object = none ∧ w'.store = [] ∧
      w'.calls = [argocd.Call.Get { Name := "argocd", Namespace := "openshift-gitops" },
        argocd.Call.Delete { Name := "argocd", Namespace := "openshift-gitops", Rest := 0 }]) :=
  ⟨by decide, by decide,
    (delete_needs_existing_resource
      memStore.policyBuilder (memStore.populatedWorld _)
      { Name := "peer-one", Namespace := "metallb-system", Rest := 0 } memStore.typedClient
      (by decide) rfl rfl
      memStore.heldArgoBuilder (memStore.populatedArgoWorld _)
      { Name := "argocd", Namespace := "openshift-gitops", Rest := 0 } memStore.runtimeClient
      (by decide) rfl rfl).1.2.2.1 rfl rfl,
    (delete_needs_existing_resource
      memStore.policyBuilder (memStore.populatedWorld _)
      { Name := "peer-one", Namespace := "metallb-system", Rest := 0 } memStore.typedClient
      (by decide) rfl rfl
      memStore.heldArgoBuilder (memStore.populatedArgoWorld _)
      { Name := "argocd", Namespace := "openshift-gitops", Rest := 0 } memStore.runtimeClient
      (by decide) rfl rfl).2.2.2.1 rfl rfl⟩

/-- C7: Pull on a resource the store's Get reports as not found returns a nil
builder and a non-nil error. Pull on an existing resource, one that has a name
and a namespace and for which the store's Get succeeds with object o, returns a
nil error and a builder whose Definition and Object are both o. This holds of
Pull of the networkpolicy package and of ArgoCDPull. -/
theorem pull_follows_get [Inhabited S]
    (c : networkpolicy.Settings σ S) (name nsname : String) (w : World σ (networkpolicy.Call S))
    (ac : argocd.Settings σ S) (aname ansname : String) (aw : World σ (argocd.Call S)) :
    ((IsNotFound (toError (c.Get w.store nsname name).1.2) = true →
        ∃ e w', networkpolicy.Pull (some c) name nsname w = some (none, some e, w')) ∧
      (name ≠ "" → nsname ≠ "" → ∀ o, (c.Get w.store nsname name).1 = (some o, none) →
        ∃ b w', networkpolicy.Pull (some c) name nsname w = some (some b, none, w') ∧
          b.Definition = some o ∧ b.Object = some o)) ∧
    ((IsNotFound (toError
          (ac.Get aw.store { Name := aname, Namespace := ansname }).1.2) = true →
        ∃ e w', argocd.ArgoCDPull (some ac) aname ansname aw = some (none, some e, w')) ∧
      (aname ≠ "" → ansname ≠ "" →
        ∀ o, (ac.Get aw.store { Name := aname, Namespace := ansname }).1 = (o, none) →
        ∃ b w', argocd.ArgoCDPull (some ac) aname ansname aw = some (some b, none, w') ∧
          b.Definition = some o ∧ b.Object = some o)) := by
  have hx := networkpolicy.policy_Exists_valid
    ({ Definition := some { Name := name, Namespace := nsname, Rest := default },
       Object := none, apiClient := some c, errorMsg := "" } :
      networkpolicy.MultiNetworkPolicyBuilder σ S)
    w { Name := name, Namespace := nsname, Rest := default } c rfl rfl rfl
  have ahx := argocd.argo_Exists_valid
    ({ Definition := some { Name := aname, Namespace := ansname, Rest := default },
       Object := none, apiClient := some ac, errorMsg := "" } : argocd.ArgoCDBuilder σ S)
    aw { Name := aname, Namespace := ansname, Rest := default } ac rfl rfl rfl
  refine ⟨⟨?_, ?_⟩, ⟨?_, ?_⟩⟩
  · intro hnf
    have hnf' : IsNotFound (toError (c.callGet w nsname name).1.2) = true := hnf
    by_cases hn : name = "" <;> by_cases hs : nsname = "" <;>
      simp [networkpolicy.Pull, hn, hs]
    simp only [hnf', Bool.not_true] at hx
    simp [hx]
  · intro hn hs o ho
    have ho' : (c.callGet w nsname name).1 = (some o, none) := ho
    simp only [ho', toError, Option.map_none', IsNotFound, Bool.not_false] at hx
    simp [networkpolicy.Pull, hn, hs, hx]
  · intro hnf
    have hnf' : IsNotFound (toError
      (ac.callGet aw { Name := aname, Namespace := ansname }).1.2) = true := hnf
    by_cases hn : aname = ""
    · by_cases hs : ansname = "" <;>
        simp [argocd.ArgoCDPull, hn, hs, argocd.Exists, argocd.validate]
    · by_cases hs : ansname = ""
      · simp [argocd.ArgoCDPull, hn, hs, argocd.Exists, argocd.validate]
      · simp only [hnf', Bool.not_true] at ahx
        simp [argocd.ArgoCDPull, hn, hs, ahx]
  · intro hn hs o ho
    have ho' : (ac.callGet aw { Name := aname, Namespace := ansname }).1 = (o, none) := ho
    simp only [ho', toError, Option.map_none', IsNotFound, Bool.not_false, if_true] at ahx
    simp [argocd.ArgoCDPull, hn, hs, ahx]

/-- Witness of C7: pulling the resource of the scenario from a store that
holds it. -/
theorem pull_follows_get_witness :
    ∃ b w', networkpolicy.Pull (some memStore.typedClient) "peer-one" "metallb-system"
        (memStore.populatedWorld _) = some (some b, none, w') ∧
      b.Definition = some { Name := "peer-one", Namespace := "metallb-system", Rest := 5 } ∧
      b.Object = some { Name := "peer-one", Namespace := "metallb-system", Rest := 5 } :=
  (pull_follows_get memStore.typedClient "peer-one" "metallb-system" (memStore.populatedWorld _)
    memStore.runtimeClient "argocd" "openshift-gitops" (memStore.emptyWorld _)).1.2
    (by decide) (by decide) _ rfl

/-- C8, the code at the failing input: over a client whose Get is refused with
an error that is not a not-found error, ArgoCDPull returns a nil error and a
builder whose Definition is nil, whose Object is nil and whose errorMsg is
empty. -/
theorem pull_refused_get_returns_nil_definition :
    (argocd.ArgoCDPull (some memStore.refusedRuntimeClient) "argocd" "openshift-gitops"
        (memStore.emptyWorld (argocd.Call Nat))).map
        (fun r => (r.1.map (fun b => (b.Definition, b.Object, b.errorMsg)), r.2.1)) =
      some (some (none, none, ""), none) := by
  rfl

/-- C9: over a store whose Get reports not-found exactly for the absent keys,
whose create inserts and whose delete removes, take the builder the constructor
makes for a non-nil client, a non-empty name and a non-empty namespace, the
resource being absent at first. Exists returns false; Create then returns a nil
error and Exists returns true; Delete then returns a nil error and Exists
returns false; a second Delete returns the non-nil "does not exist" error. -/
theorem lifecycle_scenario [Inhabited S]
    (c : networkpolicy.Settings σ S) (present : σ → String → String → Prop)
    (hl : networkpolicy.Lawful c present) (name nsname : String)
    (w : World σ (networkpolicy.Call S))
    (hn : name ≠ "") (hs : nsname ≠ "") (habs : ¬ present w.store nsname name) :
    ∃ b1 w1 b2 w2 b3 w3 b4 w4 b5 w5 b6 w6,
      networkpolicy.Exists
        (some (networkpolicy.NewMultiNetworkPolicyBuilder (some c) name nsname)) w =
        some (false, some b1, w1) ∧
      networkpolicy.Create (some b1) w1 = some (none, some b2, w2) ∧
      networkpolicy.Exists (some b2) w2 = some (true, some b3, w3) ∧
      networkpolicy.Delete (some b3) w3 = some (none, some b4, w4) ∧
      networkpolicy.Exists (some b4) w4 = some (false, some b5, w5) ∧
      networkpolicy.Delete (some b5) w5 =
        some (some (GoError.errorf
          "multiNetworkPolicy cannot be deleted because it does not exist" []),
          some b6, w6) := by
  have hb0 : networkpolicy.NewMultiNetworkPolicyBuilder (some c) name nsname =
      { Definition := some { Name := name, Namespace := nsname, Rest := default },
        Object := none, apiClient := some c, errorMsg := "" } := by
    simp [networkpolicy.NewMultiNetworkPolicyBuilder, hn, hs]
  rw [hb0]
  obtain ⟨b1, w1, h1, hd1, hc1, he1, ha1⟩ := hl.exists_absent
    { Definition := some { Name := name, Namespace := nsname, Rest := default },
      Object := none, apiClient := some c, errorMsg := "" }
    w { Name := name, Namespace := nsname, Rest := default } rfl rfl rfl habs
  obtain ⟨b2, w2, h2, hd2, hc2, he2, hp2⟩ := hl.create_absent b1 w1 _ hd1 hc1 he1 ha1
  obtain ⟨b3, w3, h3, hd3, hc3, he3, hp3⟩ := hl.exists_present b2 w2 _ hd2 hc2 he2 hp2
  obtain ⟨b4, w4, h4, hd4, hc4, he4, ha4⟩ := hl.delete_present b3 w3 _ hd3 hc3 he3 hp3
  obtain ⟨b5, w5, h5, hd5, hc5, he5, ha5⟩ := hl.exists_absent b4 w4 _ hd4 hc4 he4 ha4
  obtain ⟨b6, w6, h6⟩ := hl.delete_absent b5 w5 _ hd5 hc5 he5 ha5
  exact ⟨b1, w1, b2, w2, b3, w3, b4, w4, b5, w5, b6, w6, h1, h2, h3, h4, h5, h6⟩

/-- Witness of C9: the scenario of the spec over the empty in-memory store. -/
theorem lifecycle_scenario_witness :
    ∃ b1 w1 b2 w2 b3 w3 b4 w4 b5 w5 b6 w6,
      networkpolicy.Exists
        (some (networkpolicy.NewMultiNetworkPolicyBuilder
          (some (memStore.typedClient : networkpolicy.Settings (List (Resource Nat)) Nat))
          "peer-one" "metallb-system")) (memStore.emptyWorld _) =
        some (false, some b1, w1) ∧
      networkpolicy.Create (some b1) w1 = some (none, some b2, w2) ∧
      networkpolicy.Exists (some b2) w2 = some (true, some b3, w3) ∧
      networkpolicy.Delete (some b3) w3 = some (none, some b4, w4) ∧
      networkpolicy.Exists (some b4) w4 = some (false, some b5, w5) ∧
      networkpolicy.Delete (some b5) w5 =
        some (some (GoError.errorf
          "multiNetworkPolicy cannot be deleted because it does not exist" []),
          some b6, w6) :=
  lifecycle_scenario memStore.typedClient _ memStore.typedClient_lawful
    "peer-one" "metallb-system" (memStore.emptyWorld _) (by decide) (by decide) (by decide)

/-- Counterexample to C10: for a nil client and a proper name and namespace the
constructor leaves errorMsg empty, although the client is nil. -/
theorem constructor_ignores_nil_client_counterexample :
    ¬ ((networkpolicy.NewMultiNetworkPolicyBuilder
          (none : Option (networkpolicy.Settings (List (Resource Nat)) Nat))
          "peer-one" "metallb-system").errorMsg ≠ "" ↔
        ("peer-one" = "" ∨ "metallb-system" = "" ∨
          (none : Option (networkpolicy.Settings (List (Resource Nat)) Nat)) = none)) := by
  intro h
  exact h.mpr (Or.inr (Or.inr rfl)) (by decide)

/-- C10, amended: NewMultiNetworkPolicyBuilder is a function of its three
arguments alone, so it makes no store call. It returns a builder whose
Definition carries exactly the given name and namespace, whose Object is nil and
whose client is the one given, and it sets errorMsg to a non-empty message if
and only if the name is empty or the namespace is empty. A nil client sets no
error at construction; the first validate on the builder reports it. -/
theorem constructor_checks_name_and_namespace [Inhabited S]
    (client : Option (networkpolicy.Settings σ S)) (name nsname : String) :
    (networkpolicy.NewMultiNetworkPolicyBuilder client name nsname).Definition =
      some { Name := name, Namespace := nsname, Rest := default } ∧
    (networkpolicy.NewMultiNetworkPolicyBuilder client name nsname).Object = none ∧
    (networkpolicy.NewMultiNetworkPolicyBuilder client name nsname).apiClient = client ∧
    ((networkpolicy.NewMultiNetworkPolicyBuilder client name nsname).errorMsg ≠ "" ↔
      (name = "" ∨ nsname = "")) ∧
    (networkpolicy.NewMultiNetworkPolicyBuilder
        (none : Option (networkpolicy.Settings σ S)) name nsname).errorMsg =
      (if nsname = "" then "The multiNetworkPolicy 'namespace' cannot be empty"
        else if name = "" then "The multiNetworkPolicy 'name' cannot be empty" else "") ∧
    (networkpolicy.validate
      (some (networkpolicy.NewMultiNetworkPolicyBuilder
        (none : Option (networkpolicy.Settings σ S)) name nsname))).2 =
      (false, some (GoError.errorf "NetworkPolicy builder cannot have nil apiClient" [])) := by
  by_cases hn : name = "" <;> by_cases hs : nsname = "" <;>
    simp [networkpolicy.NewMultiNetworkPolicyBuilder, networkpolicy.validate, hn, hs]

/-- C11: on a MultiNetworkPolicyBuilder that passes validate, Update issues
exactly one store call, the update carrying the Definition, and no Get; it sets
Object to the object the store returned and returns the store's error as it is,
whatever that error is, so against an absent resource the caller receives the
error of the store. -/
theorem update_submits_definition
    (b : networkpolicy.MultiNetworkPolicyBuilder σ S) (w : World σ (networkpolicy.Call S))
    (d : Resource S) (c : networkpolicy.Settings σ S)
    (hv : (networkpolicy.validate (some b)).2.1 = true)
    (hd : b.Definition = some d) (hc : b.apiClient = some c) :
    networkpolicy.Update (some b) w =
      some (toError (c.Update w.store d.Namespace d).1.2,
        some { b with Object := (c.Update w.store d.Namespace d).1.1 },
        { store := (c.Update w.store d.Namespace d).2,
          calls := w.calls ++ [networkpolicy.Call.Update d.Namespace d] }) ∧
    (∀ e, (c.Update w.store d.Namespace d).1.2 = some e →
      ∃ b' w', networkpolicy.Update (some b) w = some (some (GoError.client e), some b', w')) := by
  obtain ⟨-, -, -, -, he⟩ := networkpolicy.policy_valid_parts b hv
  have h : networkpolicy.Update (some b) w =
      some (toError (c.Update w.store d.Namespace d).1.2,
        some { b with Object := (c.Update w.store d.Namespace d).1.1 },
        { store := (c.Update w.store d.Namespace d).2,
          calls := w.calls ++ [networkpolicy.Call.Update d.Namespace d] }) := by
    simp [networkpolicy.Update, networkpolicy.policy_validate_ok b d c hd hc he, hd, hc,
      networkpolicy.Settings.callUpdate]
  refine ⟨h, ?_⟩
  intro e hfail
  rw [h, hfail]
  exact ⟨_, _, rfl⟩

/-- Witness of C11: updating through the scenario builder on the empty
in-memory store, where the resource is absent and the store answers not-found. -/
theorem update_submits_definition_witness :
    (networkpolicy.validate (some memStore.policyBuilder)).2.1 = true ∧
    ∃ b' w', networkpolicy.Update (some memStore.policyBuilder) (memStore.emptyWorld _) =
      some (some (GoError.client (memStore.notFound "peer-one")), some b', w') :=
  ⟨by decide,
    (update_submits_definition memStore.policyBuilder (memStore.emptyWorld _)
      { Name := "peer-one", Namespace := "metallb-system", Rest := 0 } memStore.typedClient
      (by decide) rfl rfl).2 _ rfl⟩

/-- C12: on an ArgoCDBuilder that passes validate and whose resource the store's
Get reports as not found, if the store's create call succeeds then Create
returns a nil error, Object equals Definition afterwards, and the store calls
issued are the Get of the existence check and the create, with no Get after
the create. -/
theorem create_sets_object_to_definition
    (b : argocd.ArgoCDBuilder σ S) (w : World σ (argocd.Call S))
    (d : Resource S) (c : argocd.Settings σ S)
    (hv : (argocd.validate (some b)).2.1 = true)
    (hd : b.Definition = some d) (hc : b.apiClient = some c)
    (hnf : IsNotFound (toError (c.Get w.store { Name := d.Name, Namespace := d.Namespace }).1.2) = true)
    (hok : (c.Create (c.Get w.store { Name := d.Name, Namespace := d.Namespace }).2 d).1 = none) :
    ∃ b' w', argocd.Create (some b) w = some (none, some b', w') ∧
      b'.Object = b'.Definition ∧ b'.Definition = b.Definition ∧
      w'.calls = w.calls ++ [argocd.Call.Get { Name := d.Name, Namespace := d.Namespace }, argocd.Call.Create d] := by
  obtain ⟨-, -, -, -, he⟩ := argocd.argo_valid_parts b hv
  have h1 := argocd.argo_Create_absent b w d c hd hc he hnf
  have hok' : (c.callCreate (c.callGet w { Name := d.Name, Namespace := d.Namespace }).2 d).1 = none := by
    simp [argocd.Settings.callCreate, argocd.Settings.callGet, hok]
  rw [hok'] at h1
  simp only [toError, Option.map_none', if_true] at h1
  exact ⟨_, _, h1, hd.symm, rfl, by simp [argocd.Settings.callCreate, argocd.Settings.callGet]⟩

/-- Witness of C12: creating through the ArgoCD builder on the empty in-memory
store. -/
theorem create_sets_object_to_definition_witness :
    (argocd.validate (some memStore.argoBuilder)).2.1 = true ∧
    ∃ b' w', argocd.Create (some memStore.argoBuilder) (memStore.emptyWorld _) =
        some (none, some b', w') ∧
      b'.Object = b'.Definition ∧ b'.Definition = memStore.argoBuilder.Definition ∧
      w'.calls =
        [argocd.Call.Get { Name := "argocd", Namespace := "openshift-gitops" },
          argocd.Call.Create { Name := "argocd", Namespace := "openshift-gitops", Rest := 0 }] :=
  ⟨by decide,
    create_sets_object_to_definition memStore.argoBuilder (memStore.emptyWorld _)
      { Name := "argocd", Namespace := "openshift-gitops", Rest := 0 } memStore.runtimeClient
      (by decide) rfl rfl rfl rfl⟩

/-- C13: on an ArgoCDBuilder that passes validate, Get issues one store Get and
leaves the builder, its Object and its Definition included, as it was; when the
store's Get fails with error e, not-found or other, it returns nil and e
itself, and when the store's Get succeeds with object o it returns o and a nil
error. -/
theorem get_returns_fetch_and_keeps_builder
    (b : argocd.ArgoCDBuilder σ S) (w : World σ (argocd.Call S))
    (d : Resource S) (c : argocd.Settings σ S)
    (hv : (argocd.validate (some b)).2.1 = true)
    (hd : b.Definition = some d) (hc : b.apiClient = some c) :
    (∃ ret, argocd.Get (some b) w =
      some (ret, some b,
        { store := (c.Get w.store { Name := d.Name, Namespace := d.Namespace }).2, calls := w.calls ++ [argocd.Call.Get { Name := d.Name, Namespace := d.Namespace }] })) ∧
    (∀ e, (c.Get w.store { Name := d.Name, Namespace := d.Namespace }).1.2 = some e →
      ∃ w', argocd.Get (some b) w = some ((none, some (GoError.client e)), some b, w')) ∧
    (∀ o, (c.Get w.store { Name := d.Name, Namespace := d.Namespace }).1 = (o, none) →
      ∃ w', argocd.Get (some b) w = some ((some o, none), some b, w')) := by
  obtain ⟨-, -, -, -, he⟩ := argocd.argo_valid_parts b hv
  have h := argocd.argo_Get_valid b w d c hd hc he
  refine ⟨⟨_, h⟩, ?_, ?_⟩
  · intro e hfail
    have hfail' : (c.callGet w { Name := d.Name, Namespace := d.Namespace }).1.2 = some e := hfail
    rw [h, hfail']
    exact ⟨_, rfl⟩
  · intro o ho
    have ho' : (c.callGet w { Name := d.Name, Namespace := d.Namespace }).1 = (o, none) := ho
    rw [h, ho']
    exact ⟨_, rfl⟩

/-- Witness of C13: fetching through the ArgoCD builder on the empty in-memory
store, where the store answers not-found. -/
theorem get_returns_fetch_and_keeps_builder_witness :
    (argocd.validate (some memStore.argoBuilder)).2.1 = true ∧
    ∃ w', argocd.Get (some memStore.argoBuilder) (memStore.emptyWorld _) =
      some ((none, some (GoError.client (memStore.notFound "argocd"))),
        some memStore.argoBuilder, w') :=
  ⟨by decide,
    (get_returns_fetch_and_keeps_builder memStore.argoBuilder (memStore.emptyWorld _)
      { Name := "argocd", Namespace := "openshift-gitops", Rest := 0 } memStore.runtimeClient
      (by decide) rfl rfl).2.1 _ rfl⟩

end Lifecycle

/-! ## The ingress rule builder -/

section IngressRule

variable {L : Type}

theorem networkpolicy.cidr_msg_ne (cidr : String) : "Invalid CIDR argumetn " ++ cidr ≠ "" := by
  simp [String.ext_iff]

/-- On a poisoned builder `WithPortAndProtocol` touches nothing but, for a zero
port, the message. -/
theorem networkpolicy.WithPortAndProtocol_poisoned (b : networkpolicy.IngressRuleBuilder L)
    (port : Nat) (protocol : String) (he : b.errorMsg ≠ "") :
    networkpolicy.WithPortAndProtocol b port protocol =
      some { b with
        errorMsg := if port = 0 then "Invalid port number can not be 0" else b.errorMsg } := by
  by_cases hp : port = 0 <;> simp [networkpolicy.WithPortAndProtocol, hp, he]

/-- A zero port poisons every builder. -/
theorem networkpolicy.WithPortAndProtocol_zero (b : networkpolicy.IngressRuleBuilder L)
    (protocol : String) :
    networkpolicy.WithPortAndProtocol b 0 protocol =
      some { b with errorMsg := "Invalid port number can not be 0" } := by
  simp [networkpolicy.WithPortAndProtocol]

/-- On a poisoned builder `WithPeerPodSelector` does nothing. -/
theorem networkpolicy.WithPeerPodSelector_poisoned (b : networkpolicy.IngressRuleBuilder L)
    (podSelector : L) (he : b.errorMsg ≠ "") :
    networkpolicy.WithPeerPodSelector b podSelector = some b := by
  simp [networkpolicy.WithPeerPodSelector, he]

/-- On a poisoned builder `WithCIRD` touches nothing but, for a cidr that does
not parse, the message. -/
theorem networkpolicy.WithCIRD_poisoned (ParseCIDR : String → Option GoError)
    (b : networkpolicy.IngressRuleBuilder L) (cidr : String) (except : List (Slice String))
    (he : b.errorMsg ≠ "") :
    networkpolicy.WithCIRD ParseCIDR b cidr except =
      some { b with
        errorMsg :=
          if ParseCIDR cidr ≠ none then "Invalid CIDR argumetn " ++ cidr else b.errorMsg } := by
  by_cases hp : ParseCIDR cidr = none <;>
    simp [networkpolicy.WithCIRD, hp, he, networkpolicy.cidr_msg_ne]

/-- On a poisoned builder `WithPeerPodSelectorAndCIDR` does nothing. -/
theorem networkpolicy.WithPeerPodSelectorAndCIDR_poisoned
    (ParseCIDR : String → Option GoError) (b : networkpolicy.IngressRuleBuilder L)
    (podSelector : L) (cidr : String) (except : List (Slice String)) (he : b.errorMsg ≠ "") :
    networkpolicy.WithPeerPodSelectorAndCIDR ParseCIDR b podSelector cidr except = some b := by
  simp [networkpolicy.WithPeerPodSelectorAndCIDR, he]

/-- One setter call on a poisoned builder: the definition stays, the builder
stays poisoned, and the message is the old one, the zero-port one, or the one
of a `WithCIRD` whose cidr does not parse. -/
theorem networkpolicy.SetterCall_run_poisoned (ParseCIDR : String → Option GoError)
    (b : networkpolicy.IngressRuleBuilder L) (call : networkpolicy.SetterCall L)
    (he : b.errorMsg ≠ "") :
    ∃ b', call.run ParseCIDR b = some b' ∧ b'.definition = b.definition ∧ b'.errorMsg ≠ "" ∧
      (b'.errorMsg = b.errorMsg ∨ b'.errorMsg = "Invalid port number can not be 0" ∨
        ∃ cidr except, call = networkpolicy.SetterCall.WithCIRD cidr except ∧
          ParseCIDR cidr ≠ none ∧ b'.errorMsg = "Invalid CIDR argumetn " ++ cidr) := by
  cases call with
  | WithPortAndProtocol port protocol =>
    refine ⟨_, networkpolicy.WithPortAndProtocol_poisoned b port protocol he, rfl, ?_, ?_⟩
    · by_cases hp : port = 0 <;> simp [hp, he]
    · by_cases hp : port = 0 <;> simp [hp]
  | WithPeerPodSelector podSelector =>
    exact ⟨_, networkpolicy.WithPeerPodSelector_poisoned b podSelector he, rfl, he, Or.inl rfl⟩
  | WithCIRD cidr except =>
    refine ⟨_, networkpolicy.WithCIRD_poisoned ParseCIDR b cidr except he, rfl, ?_, ?_⟩
    · by_cases hp : ParseCIDR cidr = none <;> simp [hp, he, networkpolicy.cidr_msg_ne]
    · by_cases hp : ParseCIDR cidr = none
      · simp [hp]
      · exact Or.inr (Or.inr ⟨cidr, except, rfl, hp, by simp [hp]⟩)
  | WithPeerPodSelectorAndCIDR podSelector cidr except =>
    exact ⟨_, networkpolicy.WithPeerPodSelectorAndCIDR_poisoned ParseCIDR b podSelector cidr
      except he, rfl, he, Or.inl rfl⟩

/-- A chain of setter calls on a poisoned builder: the definition stays, the
builder stays poisoned, and the message is the old one, the zero-port one, or
the one of a `WithCIRD` of the chain whose cidr does not parse. -/
theorem networkpolicy.runCalls_poisoned (ParseCIDR : String → Option GoError)
    (calls : List (networkpolicy.SetterCall L)) :
    ∀ b : networkpolicy.IngressRuleBuilder L, b.errorMsg ≠ "" →
    ∃ b', networkpolicy.runCalls ParseCIDR b calls = some b' ∧
      b'.definition = b.definition ∧ b'.errorMsg ≠ "" ∧
      (b'.errorMsg = b.errorMsg ∨ b'.errorMsg = "Invalid port number can not be 0" ∨
        ∃ cidr except, networkpolicy.SetterCall.WithCIRD cidr except ∈ calls ∧
          ParseCIDR cidr ≠ none ∧ b'.errorMsg = "Invalid CIDR argumetn " ++ cidr) := by
  induction calls with
  | nil =>
    intro b he
    exact ⟨b, rfl, rfl, he, Or.inl rfl⟩
  | cons call calls ih =>
    intro b he
    obtain ⟨b1, h1, hd1, he1, hm1⟩ := networkpolicy.SetterCall_run_poisoned ParseCIDR b call he
    obtain ⟨b2, h2, hd2, he2, hm2⟩ := ih b1 he1
    refine ⟨b2, by simp [networkpolicy.runCalls, h1, h2], hd2.trans hd1, he2, ?_⟩
    rcases hm2 with h | h | ⟨cidr, except, hmem, hp, h⟩
    · rcases hm1 with h' | h' | ⟨cidr, except, hcall, hp, h'⟩
      · exact Or.inl (h.trans h')
      · exact Or.inr (Or.inl (h.trans h'))
      · exact Or.inr (Or.inr ⟨cidr, except, by simp [hcall], hp, h.trans h'⟩)
    · exact Or.inr (Or.inl h)
    · exact Or.inr (Or.inr ⟨cidr, except, List.mem_cons_of_mem _ hmem, hp, h⟩)

/-- Counterexample to C14: after WithPortAndProtocol(0, "TCP") on a new
builder, a WithCIRD with a cidr that does not parse replaces the message, and
GetIngressRuleCfg returns an error made from the invalid-CIDR message, not from
the zero-port message. -/
theorem zero_port_message_survives_counterexample :
    ((networkpolicy.WithPortAndProtocol
        (networkpolicy.NewIngressRuleBuilder : networkpolicy.IngressRuleBuilder String)
        0 "TCP").bind
      (fun b => networkpolicy.runCalls networkpolicy.exampleParseCIDR b
        [networkpolicy.SetterCall.WithCIRD "bad" []])).map networkpolicy.GetIngressRuleCfg =
      some (none, some (GoError.errorf "Invalid CIDR argumetn bad" [])) ∧
    GoError.errorf "Invalid CIDR argumetn bad" [] ≠
      GoError.errorf "Invalid port number can not be 0" [] := by
  constructor
  · rfl
  · decide

/-- C14, amended: on every IngressRuleBuilder, after WithPortAndProtocol(0, p)
and any chain of further setter calls, the definition is what it was before and
GetIngressRuleCfg returns a nil fragment and the non-nil error made from the
builder's errorMsg. That message is "Invalid port number can not be 0" unless a
WithCIRD of the chain was given a cidr that does not parse, in which case it may
be the invalid-CIDR message of such a call; when every WithCIRD of the chain is
given a cidr that parses, the error is the zero-port one. -/
theorem zero_port_poison_reaches_extraction (ParseCIDR : String → Option GoError)
    (b : networkpolicy.IngressRuleBuilder L) (p : String)
    (calls : List (networkpolicy.SetterCall L)) :
    ∃ b0 b', networkpolicy.WithPortAndProtocol b 0 p = some b0 ∧
      networkpolicy.runCalls ParseCIDR b0 calls = some b' ∧
      b'.definition = b.definition ∧
      networkpolicy.GetIngressRuleCfg b' = (none, some (GoError.errorf b'.errorMsg [])) ∧
      (b'.errorMsg = "Invalid port number can not be 0" ∨
        ∃ cidr except, networkpolicy.SetterCall.WithCIRD cidr except ∈ calls ∧
          ParseCIDR cidr ≠ none ∧ b'.errorMsg = "Invalid CIDR argumetn " ++ cidr) ∧
      ((∀ cidr except, networkpolicy.SetterCall.WithCIRD cidr except ∈ calls →
          ParseCIDR cidr = none) →
        networkpolicy.GetIngressRuleCfg b' =
          (none, some (GoError.errorf "Invalid port number can not be 0" []))) := by
  have he0 : ({ b with errorMsg := "Invalid port number can not be 0" } :
      networkpolicy.IngressRuleBuilder L).errorMsg ≠ "" := by
    show "Invalid port number can not be 0" ≠ ""
    decide
  obtain ⟨b', hrun, hd, he, hm⟩ := networkpolicy.runCalls_poisoned ParseCIDR calls _ he0
  have hget : networkpolicy.GetIngressRuleCfg b' =
      (none, some (GoError.errorf b'.errorMsg [])) := by
    simp [networkpolicy.GetIngressRuleCfg, he]
  have hm' : b'.errorMsg = "Invalid port number can not be 0" ∨
      ∃ cidr except, networkpolicy.SetterCall.WithCIRD cidr except ∈ calls ∧
        ParseCIDR cidr ≠ none ∧ b'.errorMsg = "Invalid CIDR argumetn " ++ cidr := by
    rcases hm with h | h | h
    · exact Or.inl h
    · exact Or.inl h
    · exact Or.inr h
  refine ⟨_, b', networkpolicy.WithPortAndProtocol_zero b p, hrun, hd, hget, hm', ?_⟩
  intro hall
  rcases hm' with h | ⟨cidr, except, hmem, hp, -⟩
  · rw [hget, h]
  · exact absurd (hall cidr except hmem) hp

/-- Witness of C14: a chain in which the only WithCIRD is given a cidr that
parses. -/
theorem zero_port_poison_reaches_extraction_witness :
    ∃ b0 b', networkpolicy.WithPortAndProtocol
        (networkpolicy.NewIngressRuleBuilder : networkpolicy.IngressRuleBuilder String)
        0 "TCP" = some b0 ∧
      networkpolicy.runCalls networkpolicy.exampleParseCIDR b0
        [networkpolicy.SetterCall.WithPeerPodSelector "app=web",
          networkpolicy.SetterCall.WithCIRD "10.0.0.0/24" [],
          networkpolicy.SetterCall.WithPortAndProtocol 80 "TCP"] = some b' ∧
      networkpolicy.GetIngressRuleCfg b' =
        (none, some (GoError.errorf "Invalid port number can not be 0" [])) := by
  obtain ⟨b0, b', h0, h1, -, -, -, h⟩ := zero_port_poison_reaches_extraction
    networkpolicy.exampleParseCIDR
    (networkpolicy.NewIngressRuleBuilder : networkpolicy.IngressRuleBuilder String) "TCP"
    [networkpolicy.SetterCall.WithPeerPodSelector "app=web",
      networkpolicy.SetterCall.WithCIRD "10.0.0.0/24" [],
      networkpolicy.SetterCall.WithPortAndProtocol 80 "TCP"]
  refine ⟨b0, b', h0, h1, h ?_⟩
  intro cidr except hmem
  simp at hmem
  rw [hmem.1]
  rfl

/-- C15: on an IngressRuleBuilder whose errorMsg is non-empty, each of
WithPortAndProtocol, WithPeerPodSelector, WithCIRD and
WithPeerPodSelectorAndCIDR, with any arguments, returns the builder with its
definition, the Ports list and the From list included, as it was and with a
non-empty errorMsg. -/
theorem poisoned_setters_keep_definition (ParseCIDR : String → Option GoError)
    (b : networkpolicy.IngressRuleBuilder L) (he : b.errorMsg ≠ "")
    (port : Nat) (protocol : String) (podSelector : L) (cidr : String)
    (except : List (Slice String)) :
    (∃ b', networkpolicy.WithPortAndProtocol b port protocol = some b' ∧
      b'.definition = b.definition ∧ b'.errorMsg ≠ "") ∧
    (∃ b', networkpolicy.WithPeerPodSelector b podSelector = some b' ∧
      b'.definition = b.definition ∧ b'.errorMsg ≠ "") ∧
    (∃ b', networkpolicy.WithCIRD ParseCIDR b cidr except = some b' ∧
      b'.definition = b.definition ∧ b'.errorMsg ≠ "") ∧
    (∃ b', networkpolicy.WithPeerPodSelectorAndCIDR ParseCIDR b podSelector cidr except =
        some b' ∧
      b'.definition = b.definition ∧ b'.errorMsg ≠ "") := by
  refine ⟨?_, ?_, ?_, ?_⟩
  · obtain ⟨b', h, hd, he', -⟩ := networkpolicy.SetterCall_run_poisoned ParseCIDR b
      (networkpolicy.SetterCall.WithPortAndProtocol port protocol) he
    exact ⟨b', h, hd, he'⟩
  · obtain ⟨b', h, hd, he', -⟩ := networkpolicy.SetterCall_run_poisoned ParseCIDR b
      (networkpolicy.SetterCall.WithPeerPodSelector podSelector) he
    exact ⟨b', h, hd, he'⟩
  · obtain ⟨b', h, hd, he', -⟩ := networkpolicy.SetterCall_run_poisoned ParseCIDR b
      (networkpolicy.SetterCall.WithCIRD cidr except) he
    exact ⟨b', h, hd, he'⟩
  · obtain ⟨b', h, hd, he', -⟩ := networkpolicy.SetterCall_run_poisoned ParseCIDR b
      (networkpolicy.SetterCall.WithPeerPodSelectorAndCIDR podSelector cidr except) he
    exact ⟨b', h, hd, he'⟩

/-- Witness of C15: the four setters on a builder poisoned by a zero port. -/
theorem poisoned_setters_keep_definition_witness :
    networkpolicy.poisonedBuilder.errorMsg ≠ "" ∧
    ∃ b', networkpolicy.WithCIRD networkpolicy.exampleParseCIDR networkpolicy.poisonedBuilder
        "bad" [] = some b' ∧
      b'.definition = networkpolicy.poisonedBuilder.definition ∧ b'.errorMsg ≠ "" :=
  ⟨by decide,
    (poisoned_setters_keep_definition networkpolicy.exampleParseCIDR
      networkpolicy.poisonedBuilder (by decide) 80 "TCP" "app=web" "bad" []).2.2.1⟩

/-- On an un-poisoned builder with a definition `WithPeerPodSelector` appends
one peer entry that carries the selector alone. -/
theorem networkpolicy.WithPeerPodSelector_ok (b : networkpolicy.IngressRuleBuilder L)
    (definition : networkpolicy.MultiNetworkPolicyIngressRule L) (podSelector : L)
    (he : b.errorMsg = "") (hd : b.definition = some definition) :
    networkpolicy.WithPeerPodSelector b podSelector =
      some { b with
        definition := some { definition with
          From := some (definition.From.getD [] ++
            [{ PodSelector := some podSelector, NamespaceSelector := none, IPBlock := none }]) } } := by
  simp [networkpolicy.WithPeerPodSelector, he, hd, Slice.append]

/-- On an un-poisoned builder whose peer list is nil, `WithCIRD` with a cidr
that parses makes the list one entry that holds the IPBlock alone. -/
theorem networkpolicy.WithCIRD_nil (ParseCIDR : String → Option GoError)
    (b : networkpolicy.IngressRuleBuilder L)
    (definition : networkpolicy.MultiNetworkPolicyIngressRule L) (cidr : String)
    (except : List (Slice String))
    (he : b.errorMsg = "") (hd : b.definition = some definition)
    (hp : ParseCIDR cidr = none) (hf : definition.From = none) :
    networkpolicy.WithCIRD ParseCIDR b cidr except =
      some { b with
        definition := some { definition with
          From := some [{ PodSelector := none, NamespaceSelector := none,
                          IPBlock := some { CIDR := cidr, Except := except.headD none } }] } } := by
  cases except <;>
    simp [networkpolicy.WithCIRD, he, hd, hp, hf, Slice.append, Slice.updateLast]

/-- On an un-poisoned builder whose peer list has a last entry, `WithCIRD` with
a cidr that parses sets the IPBlock of that entry and nothing else. -/
theorem networkpolicy.WithCIRD_last (ParseCIDR : String → Option GoError)
    (b : networkpolicy.IngressRuleBuilder L)
    (definition : networkpolicy.MultiNetworkPolicyIngressRule L) (cidr : String)
    (except : List (Slice String))
    (l : List (networkpolicy.MultiNetworkPolicyPeer L)) (x : networkpolicy.MultiNetworkPolicyPeer L)
    (he : b.errorMsg = "") (hd : b.definition = some definition)
    (hp : ParseCIDR cidr = none) (hf : definition.From = some (l ++ [x])) :
    networkpolicy.WithCIRD ParseCIDR b cidr except =
      some { b with
        definition := some { definition with
          From := some (l ++
            [{ x with IPBlock := some { CIDR := cidr, Except := except.headD none } }]) } } := by
  cases except <;>
    simp [networkpolicy.WithCIRD, he, hd, hp, hf, Slice.updateLast]

/-- C16: on an un-poisoned IngressRuleBuilder whose definition holds n peer
entries, WithPeerPodSelector(S) followed by WithCIRD(c) with a cidr that parses
leaves the builder un-poisoned with n+1 peer entries: the n earlier ones as they
were, then one entry that carries both the PodSelector S and an IPBlock with
CIDR c. From a new builder the result holds exactly one peer entry. -/
theorem selector_then_cidr_share_one_peer (ParseCIDR : String → Option GoError)
    (b : networkpolicy.IngressRuleBuilder L)
    (definition : networkpolicy.MultiNetworkPolicyIngressRule L) (podSelector : L)
    (cidr : String)
    (he : b.errorMsg = "") (hd : b.definition = some definition)
    (hp : ParseCIDR cidr = none) :
    (∃ b1 b2 peers, networkpolicy.WithPeerPodSelector b podSelector = some b1 ∧
      networkpolicy.WithCIRD ParseCIDR b1 cidr [] = some b2 ∧
      b2.errorMsg = "" ∧
      b2.definition = some { definition with From := some peers } ∧
      peers = definition.From.getD [] ++
        [{ PodSelector := some podSelector, NamespaceSelector := none,
           IPBlock := some { CIDR := cidr, Except := none } }] ∧
      peers.length = Slice.len definition.From + 1 ∧
      peers.take (Slice.len definition.From) = definition.From.getD [] ∧
      peers.getLast? = some { PodSelector := some podSelector, NamespaceSelector := none,
                              IPBlock := some { CIDR := cidr, Except := none } }) ∧
    (∃ b1 b2, networkpolicy.WithPeerPodSelector
        (networkpolicy.NewIngressRuleBuilder : networkpolicy.IngressRuleBuilder L)
        podSelector = some b1 ∧
      networkpolicy.WithCIRD ParseCIDR b1 cidr [] = some b2 ∧
      b2 = { definition := some { Ports := none,
                                  From := some [{ PodSelector := some podSelector,
                                                  NamespaceSelector := none,
                                                  IPBlock := some { CIDR := cidr, Except := none } }] },
             errorMsg := "" }) := by
  constructor
  · have h1 := networkpolicy.WithPeerPodSelector_ok b definition podSelector he hd
    have h2 := networkpolicy.WithCIRD_last ParseCIDR _ _ cidr [] (definition.From.getD [])
      { PodSelector := some podSelector, NamespaceSelector := none, IPBlock := none }
      (show ({ b with
        definition := some { definition with
          From := some (definition.From.getD [] ++
            [{ PodSelector := some podSelector, NamespaceSelector := none, IPBlock := none }]) } } :
        networkpolicy.IngressRuleBuilder L).errorMsg = "" from he) rfl hp rfl
    refine ⟨_, _, _, h1, h2, he, rfl, rfl, ?_, ?_, ?_⟩
    · simp [Slice.len]
    · simp [Slice.len]
    · simp
  · have h1 := networkpolicy.WithPeerPodSelector_ok
      (networkpolicy.NewIngressRuleBuilder : networkpolicy.IngressRuleBuilder L)
      { Ports := none, From := none } podSelector rfl rfl
    have h2 := networkpolicy.WithCIRD_last ParseCIDR
      (⟨some ⟨none, some ([] ++ [⟨some podSelector, none, none⟩])⟩, ""⟩ :
        networkpolicy.IngressRuleBuilder L)
      ⟨none, some ([] ++ [⟨some podSelector, none, none⟩])⟩
      cidr [] ([] : List (networkpolicy.MultiNetworkPolicyPeer L))
      { PodSelector := some podSelector, NamespaceSelector := none, IPBlock := none }
      rfl rfl hp rfl
    exact ⟨_, _, h1, h2, rfl⟩

/-- Witness of C16: the selector "app=web" and the cidr "10.0.0.0/24" on a new
builder. -/
theorem selector_then_cidr_share_one_peer_witness :
    ∃ b1 b2, networkpolicy.WithPeerPodSelector
        (networkpolicy.NewIngressRuleBuilder : networkpolicy.IngressRuleBuilder String)
        "app=web" = some b1 ∧
      networkpolicy.WithCIRD networkpolicy.exampleParseCIDR b1 "10.0.0.0/24" [] = some b2 ∧
      b2 = { definition := some { Ports := none,
                                  From := some [{ PodSelector := some "app=web",
                                                  NamespaceSelector := none,
                                                  IPBlock := some { CIDR := "10.0.0.0/24",
                                                                    Except := none } }] },
             errorMsg := "" } :=
  (selector_then_cidr_share_one_peer networkpolicy.exampleParseCIDR
    (networkpolicy.NewIngressRuleBuilder : networkpolicy.IngressRuleBuilder String)
    { Ports := none, From := none } "app=web" "10.0.0.0/24" rfl rfl rfl).2

/-- Counterexample to C17: an un-poisoned builder whose peer list is a non-nil
slice without entries. It has no peer entries, the cidr parses, and WithCIRD
does not return a builder: the list is not nil, so no entry is appended, and the
index of the last entry is out of range. -/
theorem cidr_on_empty_peers_counterexample :
    networkpolicy.emptyPeersBuilder.errorMsg = "" ∧
    networkpolicy.emptyPeersBuilder.definition = some { Ports := none, From := some [] } ∧
    networkpolicy.exampleParseCIDR "10.0.0.0/24" = none ∧
    networkpolicy.WithCIRD networkpolicy.exampleParseCIDR networkpolicy.emptyPeersBuilder
      "10.0.0.0/24" [] = none := by
  decide

/-- C17, amended: on an un-poisoned IngressRuleBuilder with a definition whose
peer list From is nil or holds at least one entry, WithCIRD(cidr, except...)
with a cidr that parses leaves Ports and errorMsg as they were. If From is nil,
the result has exactly one peer entry, which holds the IPBlock alone; if From
holds entries, their number is unchanged, all but the last are unchanged, and
the last keeps its selectors and has its IPBlock set. In both cases the CIDR of
the IPBlock is cidr and its Except list is the first exception list passed, or
nil when none is passed. -/
theorem cidr_attaches_to_last_peer (ParseCIDR : String → Option GoError)
    (b : networkpolicy.IngressRuleBuilder L)
    (definition : networkpolicy.MultiNetworkPolicyIngressRule L) (cidr : String)
    (except : List (Slice String))
    (he : b.errorMsg = "") (hd : b.definition = some definition)
    (hp : ParseCIDR cidr = none) :
    (definition.From = none →
      networkpolicy.WithCIRD ParseCIDR b cidr except =
        some { definition := some
                 { Ports := definition.Ports,
                   From := some [{ PodSelector := none, NamespaceSelector := none,
                                   IPBlock := some { CIDR := cidr,
                                                     Except := except.headD none } }] },
               errorMsg := b.errorMsg }) ∧
    (∀ l x, definition.From = some (l ++ [x]) →
      networkpolicy.WithCIRD ParseCIDR b cidr except =
        some { definition := some
                 { Ports := definition.Ports,
                   From := some (l ++
                     [{ PodSelector := x.PodSelector, NamespaceSelector := x.NamespaceSelector,
                        IPBlock := some { CIDR := cidr, Except := except.headD none } }]) },
               errorMsg := b.errorMsg }) := by
  constructor
  · intro hf
    exact networkpolicy.WithCIRD_nil ParseCIDR b definition cidr except he hd hp hf
  · intro l x hf
    exact networkpolicy.WithCIRD_last ParseCIDR b definition cidr except l x he hd hp hf

/-- Witness of C17: WithCIRD with one exception list on a new builder. -/
theorem cidr_attaches_to_last_peer_witness :
    networkpolicy.WithCIRD networkpolicy.exampleParseCIDR
        (networkpolicy.NewIngressRuleBuilder : networkpolicy.IngressRuleBuilder String)
        "10.0.0.0/24" [some ["10.0.0.7/32"]] =
      some { definition := some
               { Ports := none,
                 From := some [{ PodSelector := none, NamespaceSelector := none,
                                 IPBlock := some { CIDR := "10.0.0.0/24",
                                                   Except := some ["10.0.0.7/32"] } }] },
             errorMsg := "" } :=
  (cidr_attaches_to_last_peer networkpolicy.exampleParseCIDR
    (networkpolicy.NewIngressRuleBuilder : networkpolicy.IngressRuleBuilder String)
    { Ports := none, From := none } "10.0.0.0/24" [some ["10.0.0.7/32"]] rfl rfl rfl).1 rfl

/-- Counterexample to C18: on a builder poisoned by a zero port and with a cidr
that does not parse, WithPeerPodSelectorAndCIDR leaves the zero-port message,
while WithPeerPodSelector followed by WithCIRD replaces it by the invalid-CIDR
message. -/
theorem sugar_equals_two_calls_counterexample :
    networkpolicy.WithPeerPodSelectorAndCIDR networkpolicy.exampleParseCIDR
        networkpolicy.poisonedBuilder "app=web" "bad" [] =
      some { definition := some { Ports := none, From := none },
             errorMsg := "Invalid port number can not be 0" } ∧
    (networkpolicy.WithPeerPodSelector networkpolicy.poisonedBuilder "app=web").bind
        (fun b => networkpolicy.WithCIRD networkpolicy.exampleParseCIDR b "bad" []) =
      some { definition := some { Ports := none, From := none },
             errorMsg := "Invalid CIDR argumetn bad" } ∧
    networkpolicy.WithPeerPodSelectorAndCIDR networkpolicy.exampleParseCIDR
        networkpolicy.poisonedBuilder "app=web" "bad" [] ≠
      (networkpolicy.WithPeerPodSelector networkpolicy.poisonedBuilder "app=web").bind
        (fun b => networkpolicy.WithCIRD networkpolicy.exampleParseCIDR b "bad" []) := by
  decide

/-- C18, amended: on a builder that is not poisoned, or with a cidr that
parses, WithPeerPodSelectorAndCIDR(selector, cidr, except...) has the same
outcome, the same definition and the same errorMsg, as WithPeerPodSelector(selector)
followed by WithCIRD(cidr, except...). On a poisoned builder with a cidr that
does not parse the two differ: WithPeerPodSelectorAndCIDR returns the builder as
it was, and the two calls return it with errorMsg replaced by the invalid-CIDR
message. -/
theorem sugar_equals_two_calls_unless_poisoned (ParseCIDR : String → Option GoError)
    (b : networkpolicy.IngressRuleBuilder L) (podSelector : L) (cidr : String)
    (except : List (Slice String)) :
    ((b.errorMsg = "" ∨ ParseCIDR cidr = none) →
      networkpolicy.WithPeerPodSelectorAndCIDR ParseCIDR b podSelector cidr except =
        (networkpolicy.WithPeerPodSelector b podSelector).bind
          (fun b1 => networkpolicy.WithCIRD ParseCIDR b1 cidr except)) ∧
    (b.errorMsg ≠ "" → ParseCIDR cidr ≠ none →
      networkpolicy.WithPeerPodSelectorAndCIDR ParseCIDR b podSelector cidr except = some b ∧
      (networkpolicy.WithPeerPodSelector b podSelector).bind
          (fun b1 => networkpolicy.WithCIRD ParseCIDR b1 cidr except) =
        some { b with errorMsg := "Invalid CIDR argumetn " ++ cidr }) := by
  constructor
  · intro h
    by_cases he : b.errorMsg = ""
    · simp only [networkpolicy.WithPeerPodSelectorAndCIDR, he, ne_eq, not_true_eq_false,
        if_false]
      cases h1 : networkpolicy.WithPeerPodSelector b podSelector with
      | none => rfl
      | some b1 =>
        cases h2 : networkpolicy.WithCIRD ParseCIDR b1 cidr except <;> simp [h2]
    · have hp : ParseCIDR cidr = none := h.resolve_left he
      rw [networkpolicy.WithPeerPodSelectorAndCIDR_poisoned ParseCIDR b podSelector cidr except he,
        networkpolicy.WithPeerPodSelector_poisoned b podSelector he]
      simp [networkpolicy.WithCIRD_poisoned ParseCIDR b cidr except he, hp]
  · intro he hp
    refine ⟨networkpolicy.WithPeerPodSelectorAndCIDR_poisoned ParseCIDR b podSelector cidr
      except he, ?_⟩
    rw [networkpolicy.WithPeerPodSelector_poisoned b podSelector he]
    simp [networkpolicy.WithCIRD_poisoned ParseCIDR b cidr except he, hp]

/-- Witness of C18: the two ways on a new builder with a cidr that parses. -/
theorem sugar_equals_two_calls_unless_poisoned_witness :
    networkpolicy.WithPeerPodSelectorAndCIDR networkpolicy.exampleParseCIDR
        (networkpolicy.NewIngressRuleBuilder : networkpolicy.IngressRuleBuilder String)
        "app=web" "10.0.0.0/24" [] =
      (networkpolicy.WithPeerPodSelector
        (networkpolicy.NewIngressRuleBuilder : networkpolicy.IngressRuleBuilder String)
        "app=web").bind
        (fun b1 => networkpolicy.WithCIRD networkpolicy.exampleParseCIDR b1 "10.0.0.0/24" []) :=
  (sugar_equals_two_calls_unless_poisoned networkpolicy.exampleParseCIDR
    (networkpolicy.NewIngressRuleBuilder : networkpolicy.IngressRuleBuilder String)
    "app=web" "10.0.0.0/24" []).1 (Or.inl rfl)

/-- C19, the code at the failing input: the first option returns a pointer to
another builder, one that holds port 80, and a nil error; the second option
appends a selector to the builder it is handed. WithOptions hands the second
option the receiver, not the builder the first one returned, and returns the
receiver, which holds the selector and no port. With the first option alone it
returns the receiver unchanged, not the builder that option returned. -/
theorem with_options_drops_returned_builder :
    networkpolicy.WithOptions
        (networkpolicy.NewIngressRuleBuilder : networkpolicy.IngressRuleBuilder String)
        [some networkpolicy.freshBuilderOption, some networkpolicy.selectorOption] =
      some { receiver :=
               { definition := some
                   { Ports := none,
                     From := some [{ PodSelector := some "app=web", NamespaceSelector := none,
                                     IPBlock := none }] },
                 errorMsg := "" },
             returned := networkpolicy.BuilderRef.receiver } ∧
    networkpolicy.WithOptions
        (networkpolicy.NewIngressRuleBuilder : networkpolicy.IngressRuleBuilder String)
        [some networkpolicy.freshBuilderOption] =
      some { receiver := networkpolicy.NewIngressRuleBuilder,
             returned := networkpolicy.BuilderRef.receiver } := by
  decide

/-- C20, the code at the failing input: on a builder poisoned by a zero port,
WithOptions calls the option it is given. With an option that returns the error
"boom" the builder comes back with errorMsg "boom"; with an option that returns
an error whose text is empty it comes back with an empty errorMsg, and
GetIngressRuleCfg then returns the definition and a nil error. -/
theorem with_options_runs_on_poisoned_builder :
    networkpolicy.poisonedBuilder.errorMsg = "Invalid port number can not be 0" ∧
    networkpolicy.WithOptions networkpolicy.poisonedBuilder
        [some networkpolicy.failingOption] =
      some { receiver := { definition := some { Ports := none, From := none },
                           errorMsg := "boom" },
             returned := networkpolicy.BuilderRef.receiver } ∧
    (networkpolicy.WithOptions networkpolicy.poisonedBuilder
        [some networkpolicy.silentFailingOption]).map
        (fun r => (r.receiver.errorMsg, networkpolicy.GetIngressRuleCfg r.receiver)) =
      some ("", some { Ports := none, From := none }, none) := by
  decide

/-- C21, the code at the failing input: GetIngressRuleCfg is a function of the
builder alone; it returns the definition and a nil error when errorMsg is
empty, and otherwise a nil fragment and the error fmt.Errorf(errorMsg), made
with errorMsg as the format. For the builder that WithCIRD("fe80::1%eth0")
leaves, whose errorMsg is "Invalid CIDR argumetn fe80::1%eth0", the text of
that error is "Invalid CIDR argumetn fe80::1%!e(MISSING)th0", not errorMsg. -/
theorem extraction_error_text_is_formatted (b : networkpolicy.IngressRuleBuilder L) :
    networkpolicy.GetIngressRuleCfg b =
      (if b.errorMsg = "" then (b.definition, none)
        else (none, some (GoError.errorf b.errorMsg []))) ∧
    networkpolicy.WithCIRD networkpolicy.exampleParseCIDR
        (networkpolicy.NewIngressRuleBuilder : networkpolicy.IngressRuleBuilder String)
        "fe80::1%eth0" [] = some networkpolicy.zoneBuilder ∧
    networkpolicy.zoneBuilder.errorMsg = "Invalid CIDR argumetn fe80::1%eth0" ∧
    (networkpolicy.GetIngressRuleCfg networkpolicy.zoneBuilder).1 = none ∧
    (networkpolicy.GetIngressRuleCfg networkpolicy.zoneBuilder).2.bind GoError.Error =
      some "Invalid CIDR argumetn fe80::1%!e(MISSING)th0" := by
  refine ⟨?_, by decide, rfl, by decide, by decide⟩
  by_cases he : b.errorMsg = "" <;> simp [networkpolicy.GetIngressRuleCfg, he]

theorem intstr.FromInt_uint16 (port : Nat) (hport : port < 65536) :
    intstr.FromInt (port : Int) = { Kind := 0, IntVal := (port : Int), StrVal := "" } := by
  have h : ((port : Int) + 2147483648) % 4294967296 - 2147483648 = (port : Int) := by
    omega
  simp [intstr.FromInt, h]

/-- C22: on an un-poisoned IngressRuleBuilder with a definition, and for a port
that is not 0, WithPortAndProtocol(port, protocol) appends exactly one entry at
the end of Ports, after the earlier entries in their order; the entry holds the
protocol and the port, as the integer value port for a port below 65536; From
is unchanged and errorMsg stays empty. With port 0 it adds no entry and sets
errorMsg. The builder of NewIngressRuleBuilder has no ports, no peers and no
error. -/
theorem port_and_protocol_appends_one_port (b : networkpolicy.IngressRuleBuilder L)
    (definition : networkpolicy.MultiNetworkPolicyIngressRule L) (port : Nat)
    (protocol : String)
    (he : b.errorMsg = "") (hd : b.definition = some definition) (hport : port < 65536) :
    (port ≠ 0 →
      networkpolicy.WithPortAndProtocol b port protocol =
        some { definition := some
                 { Ports := some (definition.Ports.getD [] ++
                     [{ Protocol := some protocol,
                        Port := some { Kind := 0, IntVal := Int.ofNat port, StrVal := "" },
                        EndPort := none }]),
                   From := definition.From },
               errorMsg := "" }) ∧
    networkpolicy.WithPortAndProtocol b 0 protocol =
      some { definition := b.definition, errorMsg := "Invalid port number can not be 0" } ∧
    (networkpolicy.NewIngressRuleBuilder : networkpolicy.IngressRuleBuilder L) =
      { definition := some { Ports := none, From := none }, errorMsg := "" } := by
  refine ⟨?_, networkpolicy.WithPortAndProtocol_zero b protocol, rfl⟩
  intro hp
  simp [networkpolicy.WithPortAndProtocol, hp, he, hd, Slice.append,
    intstr.FromInt_uint16 port hport]

/-- Witness of C22: port 80 over TCP on a new builder. -/
theorem port_and_protocol_appends_one_port_witness :
    networkpolicy.WithPortAndProtocol
        (networkpolicy.NewIngressRuleBuilder : networkpolicy.IngressRuleBuilder String)
        80 "TCP" =
      some { definition := some
               { Ports := some ([] ++
                   [{ Protocol := some "TCP",
                      Port := some { Kind := 0, IntVal := Int.ofNat 80, StrVal := "" },
                      EndPort := none }]),
                 From := none },
             errorMsg := "" } :=
  (port_and_protocol_appends_one_port
    (networkpolicy.NewIngressRuleBuilder : networkpolicy.IngressRuleBuilder String)
    { Ports := none, From := none } 80 "TCP" rfl rfl (by decide)).1 (by decide)

/-- A builder that keeps its definition keeps its peer list in range. -/
theorem networkpolicy.PeersInRange_of_definition_eq (b b' : networkpolicy.IngressRuleBuilder L)
    (h : networkpolicy.PeersInRange b) (hd : b'.definition = b.definition) :
    networkpolicy.PeersInRange b' := by
  obtain ⟨definition, hdef, hf⟩ := h
  exact ⟨definition, hd.trans hdef, hf⟩

/-- A slice that holds an entry is a list with a last element. -/
theorem Slice.eq_concat_of_len_pos {α : Type} (s : Slice α) (h : 0 < Slice.len s) :
    ∃ l x, s = some (l ++ [x]) := by
  cases s with
  | none => simp [Slice.len] at h
  | some l =>
    have hne : l ≠ [] := by
      intro h0
      simp [Slice.len, h0] at h
    exact ⟨l.dropLast, l.getLast hne, by rw [List.dropLast_append_getLast hne]⟩

/-- `WithPortAndProtocol` returns, and keeps the peer list in range. -/
theorem networkpolicy.WithPortAndProtocol_inRange (b : networkpolicy.IngressRuleBuilder L)
    (port : Nat) (protocol : String) (h : networkpolicy.PeersInRange b) :
    ∃ b', networkpolicy.WithPortAndProtocol b port protocol = some b' ∧
      networkpolicy.PeersInRange b' := by
  by_cases he : b.errorMsg = ""
  · by_cases hp : port = 0
    · subst hp
      exact ⟨_, networkpolicy.WithPortAndProtocol_zero b protocol,
        networkpolicy.PeersInRange_of_definition_eq b _ h rfl⟩
    · obtain ⟨definition, hd, hf⟩ := h
      refine ⟨⟨some ⟨Slice.append definition.Ports
        ⟨some protocol, some (intstr.FromInt (Int.ofNat port)), none⟩, definition.From⟩,
        b.errorMsg⟩, ?_, _, rfl, hf⟩
      simp [networkpolicy.WithPortAndProtocol, hp, he, hd]
  · exact ⟨_, networkpolicy.WithPortAndProtocol_poisoned b port protocol he,
      networkpolicy.PeersInRange_of_definition_eq b _ h rfl⟩

/-- `WithPeerPodSelector` returns, and keeps the peer list in range. -/
theorem networkpolicy.WithPeerPodSelector_inRange (b : networkpolicy.IngressRuleBuilder L)
    (podSelector : L) (h : networkpolicy.PeersInRange b) :
    ∃ b', networkpolicy.WithPeerPodSelector b podSelector = some b' ∧
      networkpolicy.PeersInRange b' := by
  by_cases he : b.errorMsg = ""
  · obtain ⟨definition, hd, -⟩ := h
    exact ⟨_, networkpolicy.WithPeerPodSelector_ok b definition podSelector he hd, _, rfl,
      Or.inr (by simp [Slice.len])⟩
  · exact ⟨_, networkpolicy.WithPeerPodSelector_poisoned b podSelector he, h⟩

/-- `WithCIRD` returns, and keeps the peer list in range. -/
theorem networkpolicy.WithCIRD_inRange (ParseCIDR : String → Option GoError)
    (b : networkpolicy.IngressRuleBuilder L) (cidr : String) (except : List (Slice String))
    (h : networkpolicy.PeersInRange b) :
    ∃ b', networkpolicy.WithCIRD ParseCIDR b cidr except = some b' ∧
      networkpolicy.PeersInRange b' := by
  by_cases he : b.errorMsg = ""
  · by_cases hp : ParseCIDR cidr = none
    · obtain ⟨definition, hd, hf | hf⟩ := h
      · exact ⟨_, networkpolicy.WithCIRD_nil ParseCIDR b definition cidr except he hd hp hf,
          _, rfl, Or.inr (by simp [Slice.len])⟩
      · obtain ⟨l, x, hlx⟩ := Slice.eq_concat_of_len_pos _ hf
        exact ⟨_, networkpolicy.WithCIRD_last ParseCIDR b definition cidr except l x he hd hp
          hlx, _, rfl, Or.inr (by simp [Slice.len])⟩
    · exact ⟨{ b with errorMsg := "Invalid CIDR argumetn " ++ cidr },
        by simp [networkpolicy.WithCIRD, hp, networkpolicy.cidr_msg_ne],
        networkpolicy.PeersInRange_of_definition_eq b _ h rfl⟩
  · exact ⟨_, networkpolicy.WithCIRD_poisoned ParseCIDR b cidr except he,
      networkpolicy.PeersInRange_of_definition_eq b _ h rfl⟩

/-- `WithPeerPodSelectorAndCIDR` returns, and keeps the peer list in range. -/
theorem networkpolicy.WithPeerPodSelectorAndCIDR_inRange (ParseCIDR : String → Option GoError)
    (b : networkpolicy.IngressRuleBuilder L) (podSelector : L) (cidr : String)
    (except : List (Slice String)) (h : networkpolicy.PeersInRange b) :
    ∃ b', networkpolicy.WithPeerPodSelectorAndCIDR ParseCIDR b podSelector cidr except =
        some b' ∧
      networkpolicy.PeersInRange b' := by
  by_cases he : b.errorMsg = ""
  · obtain ⟨b1, h1, hr1⟩ := networkpolicy.WithPeerPodSelector_inRange b podSelector h
    obtain ⟨b2, h2, hr2⟩ := networkpolicy.WithCIRD_inRange ParseCIDR b1 cidr except hr1
    exact ⟨b2, by simp [networkpolicy.WithPeerPodSelectorAndCIDR, he, h1, h2], hr2⟩
  · exact ⟨_, networkpolicy.WithPeerPodSelectorAndCIDR_poisoned ParseCIDR b podSelector cidr
      except he, h⟩

/-- A chain of setter calls returns, and keeps the peer list in range. -/
theorem networkpolicy.runCalls_inRange (ParseCIDR : String → Option GoError)
    (calls : List (networkpolicy.SetterCall L)) :
    ∀ b : networkpolicy.IngressRuleBuilder L, networkpolicy.PeersInRange b →
    ∃ b', networkpolicy.runCalls ParseCIDR b calls = some b' ∧
      networkpolicy.PeersInRange b' := by
  induction calls with
  | nil =>
    intro b h
    exact ⟨b, rfl, h⟩
  | cons call calls ih =>
    intro b h
    have hstep : ∃ b1, call.run ParseCIDR b = some b1 ∧ networkpolicy.PeersInRange b1 := by
      cases call with
      | WithPortAndProtocol port protocol =>
        exact networkpolicy.WithPortAndProtocol_inRange b port protocol h
      | WithPeerPodSelector podSelector =>
        exact networkpolicy.WithPeerPodSelector_inRange b podSelector h
      | WithCIRD cidr except =>
        exact networkpolicy.WithCIRD_inRange ParseCIDR b cidr except h
      | WithPeerPodSelectorAndCIDR podSelector cidr except =>
        exact networkpolicy.WithPeerPodSelectorAndCIDR_inRange ParseCIDR b podSelector cidr
          except h
    obtain ⟨b1, h1, hr1⟩ := hstep
    obtain ⟨b2, h2, hr2⟩ := ih b1 hr1
    exact ⟨b2, by simp [networkpolicy.runCalls, h1, h2], hr2⟩

/-- C23: every finite chain of WithPortAndProtocol, WithPeerPodSelector,
WithCIRD and WithPeerPodSelectorAndCIDR calls on the builder of
NewIngressRuleBuilder returns a builder, and in that builder the peer list From
is nil or holds at least one entry; so the index len(From)-1 that WithCIRD uses
is in range, and a further WithCIRD, with any arguments, returns a builder as
well. -/
theorem reachable_peers_in_range (ParseCIDR : String → Option GoError)
    (calls : List (networkpolicy.SetterCall L)) :
    ∃ b, networkpolicy.runCalls ParseCIDR
        (networkpolicy.NewIngressRuleBuilder : networkpolicy.IngressRuleBuilder L)
        calls = some b ∧
      (∃ definition, b.definition = some definition ∧
        (definition.From = none ∨ 0 < Slice.len definition.From)) ∧
      ∀ (cidr : String) (except : List (Slice String)),
        ∃ b', networkpolicy.WithCIRD ParseCIDR b cidr except = some b' := by
  have h0 : networkpolicy.PeersInRange
      (networkpolicy.NewIngressRuleBuilder : networkpolicy.IngressRuleBuilder L) :=
    ⟨_, rfl, Or.inl rfl⟩
  obtain ⟨b, hrun, hr⟩ := networkpolicy.runCalls_inRange ParseCIDR calls _ h0
  refine ⟨b, hrun, hr, ?_⟩
  intro cidr except
  obtain ⟨b', h, -⟩ := networkpolicy.WithCIRD_inRange ParseCIDR b cidr except hr
  exact ⟨b', h⟩

/-- C24, the code at the failing input: an option that returns a nil builder and
the error "boom". WithOptions on a new builder assigns errorMsg through the nil
pointer the option returned and does not return. -/
theorem with_options_dereferences_nil_builder :
    (networkpolicy.nilFailingOption
        (networkpolicy.NewIngressRuleBuilder : networkpolicy.IngressRuleBuilder String)).returned =
      networkpolicy.BuilderRef.nil ∧
    (networkpolicy.nilFailingOption
        (networkpolicy.NewIngressRuleBuilder : networkpolicy.IngressRuleBuilder String)).err =
      some { Error := "boom" } ∧
    networkpolicy.WithOptions
        (networkpolicy.NewIngressRuleBuilder : networkpolicy.IngressRuleBuilder String)
        [some networkpolicy.nilFailingOption] = none := by
  decide

end IngressRule

end EcoGoinfra
